import Mathlib

/-!
A shallow embedding of the Monopoly rules engine
(`backend/game/logic/game_engine.py` together with the static data in
`backend/game/data/tiles.py`, `backend/game/data/property.py` and
`backend/game/data/card_decks.py`), and proofs about its behaviour.

Machine conventions:
* board positions are `Fin 40`; Python `% 40` movement is explicit;
* player cash is `Int` (it may go negative before bankruptcy);
* dice and card-deck randomness is passed in explicitly (dice values as
  arguments, reshuffle outcomes as oracle functions `Nat → List Card`);
* the recursive landing-resolution of the source (cards can move the player
  and re-resolve the landing) is modelled with explicit fuel; running out of
  fuel is recorded in the result (`fuelOut`), as is the one place where the
  source could pop from an empty list (`fault`);
* Python dict results are modelled by a record of optional fields.
-/

namespace Monopoly

/-- Tile categories, from `tiles.py` (`TileType`). -/
inductive TileType where
  | go | property | railroad | utility | tax
  | chance | communityChest | jail | freeParking | goToJail
deriving DecidableEq, Repr

/-- Game phases, from `game_engine.py` (`GamePhase`). -/
inductive GamePhase where
  | waitingForRoll | waitingForBuyDecision | inJail | turnComplete | gameOver
deriving DecidableEq, Repr

/-- Chance / Community Chest cards, from `card_decks.py`.  The five `type`
tags occurring in the data are the constructors; the display text is kept. -/
inductive Card where
  | money (amount : Int) (text : String)
  | move (dest : Fin 40) (text : String)
  | moveBack (spaces : Nat) (text : String)
  | jailCard (text : String)
  | goToJail (text : String)
deriving DecidableEq, Repr

/-- The Chance deck definition (`CHANCE_CARDS`). -/
def chanceCards : List Card :=
  [ .move 0 "Advance to GO",
    .move 24 "Advance to Illinois Avenue",
    .move 39 "Advance to Boardwalk",
    .move 5 "Advance to Reading Railroad",
    .money 150 "Bank pays you dividend of 150",
    .money (-15) "Speeding fine 15",
    .jailCard "Get Out of Jail Free",
    .goToJail "Go directly to Jail",
    .money 50 "Bank pays you 50",
    .moveBack 3 "Go back 3 spaces" ]

/-- The Community Chest deck definition (`COMMUNITY_CARDS`). -/
def communityCards : List Card :=
  [ .move 0 "Advance to GO",
    .money 200 "Bank error in your favor, collect 200",
    .money (-50) "Doctors fees, pay 50",
    .money 100 "You inherit 100",
    .money (-100) "Pay hospital fees 100",
    .jailCard "Get Out of Jail Free",
    .goToJail "Go to Jail",
    .money 25 "Receive 25 consultancy fee",
    .money 10 "You won second prize in beauty contest, collect 10",
    .money (-150) "Pay school fees 150" ]

/-- The immutable part of a tile: the fields of `Property` that are filled
from `TILE_DATA` at game start and never mutated.  `amount` is the tax
amount (`TILE_DATA[pos].get("amount", 0)`). -/
structure TileStatic where
  name : String
  tile_type : TileType
  price : Nat := 0
  mortgage_value : Nat := 0
  color_group : String := ""
  house_cost : Nat := 0
  rent : List Nat := []
  amount : Nat := 0
deriving DecidableEq, Repr

/-- The mutable per-tile state of `Property` (owner, houses, mortgage). -/
structure TileDyn where
  owner : Option String := none
  houses : Nat := 0
  is_mortgaged : Bool := false
deriving DecidableEq, Repr

/-- The 40-entry board, transcribed from `TILE_DATA` in `tiles.py`. -/
def boardList : List TileStatic :=
  [ { name := "GO", tile_type := .go },
    { name := "Mediterranean Avenue", tile_type := .property, price := 60, mortgage_value := 30, color_group := "brown", house_cost := 50, rent := [2, 10, 30, 90, 160, 250] },
    { name := "Community Chest", tile_type := .communityChest },
    { name := "Baltic Avenue", tile_type := .property, price := 60, mortgage_value := 30, color_group := "brown", house_cost := 50, rent := [4, 20, 60, 180, 320, 450] },
    { name := "Income Tax", tile_type := .tax, amount := 200 },
    { name := "Reading Railroad", tile_type := .railroad, price := 200, mortgage_value := 100 },
    { name := "Oriental Avenue", tile_type := .property, price := 100, mortgage_value := 50, color_group := "light_blue", house_cost := 50, rent := [6, 30, 90, 270, 400, 550] },
    { name := "Chance", tile_type := .chance },
    { name := "Vermont Avenue", tile_type := .property, price := 100, mortgage_value := 50, color_group := "light_blue", house_cost := 50, rent := [6, 30, 90, 270, 400, 550] },
    { name := "Connecticut Avenue", tile_type := .property, price := 120, mortgage_value := 60, color_group := "light_blue", house_cost := 50, rent := [8, 40, 100, 300, 450, 600] },
    { name := "Jail / Just Visiting", tile_type := .jail },
    { name := "St. Charles Place", tile_type := .property, price := 140, mortgage_value := 70, color_group := "pink", house_cost := 100, rent := [10, 50, 150, 450, 625, 750] },
    { name := "Electric Company", tile_type := .utility, price := 150, mortgage_value := 75 },
    { name := "States Avenue", tile_type := .property, price := 140, mortgage_value := 70, color_group := "pink", house_cost := 100, rent := [10, 50, 150, 450, 625, 750] },
    { name := "Virginia Avenue", tile_type := .property, price := 160, mortgage_value := 80, color_group := "pink", house_cost := 100, rent := [12, 60, 180, 500, 700, 900] },
    { name := "Pennsylvania Railroad", tile_type := .railroad, price := 200, mortgage_value := 100 },
    { name := "St. James Place", tile_type := .property, price := 180, mortgage_value := 90, color_group := "orange", house_cost := 100, rent := [14, 70, 200, 550, 750, 950] },
    { name := "Community Chest", tile_type := .communityChest },
    { name := "Tennessee Avenue", tile_type := .property, price := 180, mortgage_value := 90, color_group := "orange", house_cost := 100, rent := [14, 70, 200, 550, 750, 950] },
    { name := "New York Avenue", tile_type := .property, price := 200, mortgage_value := 100, color_group := "orange", house_cost := 100, rent := [16, 80, 220, 600, 800, 1000] },
    { name := "Free Parking", tile_type := .freeParking },
    { name := "Kentucky Avenue", tile_type := .property, price := 220, mortgage_value := 110, color_group := "red", house_cost := 150, rent := [18, 90, 250, 700, 875, 1050] },
    { name := "Chance", tile_type := .chance },
    { name := "Indiana Avenue", tile_type := .property, price := 220, mortgage_value := 110, color_group := "red", house_cost := 150, rent := [18, 90, 250, 700, 875, 1050] },
    { name := "Illinois Avenue", tile_type := .property, price := 240, mortgage_value := 120, color_group := "red", house_cost := 150, rent := [20, 100, 300, 750, 925, 1100] },
    { name := "B and O Railroad", tile_type := .railroad, price := 200, mortgage_value := 100 },
    { name := "Atlantic Avenue", tile_type := .property, price := 260, mortgage_value := 130, color_group := "yellow", house_cost := 150, rent := [22, 110, 330, 800, 975, 1150] },
    { name := "Ventnor Avenue", tile_type := .property, price := 260, mortgage_value := 130, color_group := "yellow", house_cost := 150, rent := [22, 110, 330, 800, 975, 1150] },
    { name := "Water Works", tile_type := .utility, price := 150, mortgage_value := 75 },
    { name := "Marvin Gardens", tile_type := .property, price := 280, mortgage_value := 140, color_group := "yellow", house_cost := 150, rent := [24, 120, 360, 850, 1025, 1200] },
    { name := "Go To Jail", tile_type := .goToJail },
    { name := "Pacific Avenue", tile_type := .property, price := 300, mortgage_value := 150, color_group := "green", house_cost := 200, rent := [26, 130, 390, 900, 1100, 1275] },
    { name := "North Carolina Avenue", tile_type := .property, price := 300, mortgage_value := 150, color_group := "green", house_cost := 200, rent := [26, 130, 390, 900, 1100, 1275] },
    { name := "Community Chest", tile_type := .communityChest },
    { name := "Pennsylvania Avenue", tile_type := .property, price := 320, mortgage_value := 160, color_group := "green", house_cost := 200, rent := [28, 150, 450, 1000, 1200, 1400] },
    { name := "Short Line Railroad", tile_type := .railroad, price := 200, mortgage_value := 100 },
    { name := "Chance", tile_type := .chance },
    { name := "Park Place", tile_type := .property, price := 350, mortgage_value := 175, color_group := "dark_blue", house_cost := 200, rent := [35, 175, 500, 1100, 1300, 1500] },
    { name := "Luxury Tax", tile_type := .tax, amount := 100 },
    { name := "Boardwalk", tile_type := .property, price := 400, mortgage_value := 200, color_group := "dark_blue", house_cost := 200, rent := [50, 200, 600, 1400, 1700, 2000] } ]

/-- The static tile at a board position. -/
def board (pos : Fin 40) : TileStatic :=
  boardList.getD pos.val { name := "", tile_type := .go }

/-- Color groups, from `COLOR_GROUPS` in `property.py`.  Unknown color names
yield `[]`, matching `COLOR_GROUPS.get(color, [])`. -/
def colorGroups (color : String) : List (Fin 40) :=
  if color = "brown" then [1, 3]
  else if color = "light_blue" then [6, 8, 9]
  else if color = "pink" then [11, 13, 14]
  else if color = "orange" then [16, 18, 19]
  else if color = "red" then [21, 23, 24]
  else if color = "yellow" then [26, 27, 29]
  else if color = "green" then [31, 32, 34]
  else if color = "dark_blue" then [37, 39]
  else []

/-- Player record.  Modelled from the spec: the `Player` dataclass of
`game/data/player.py` is not part of the sources; spec section 3 lists its
fields (cash, board position, owned tile positions, jail flag and attempt
counter, jail-card count, consecutive-doubles counter, bankruptcy flag) and
the starting cash of 1500 appears in spec section 8. -/
structure Player where
  name : String
  money : Int := 1500
  position : Fin 40 := 0
  properties : List (Fin 40) := []
  in_jail : Bool := false
  jail_turns : Nat := 0
  jail_cards : Nat := 0
  doubles_count : Nat := 0
  bankrupt : Bool := false
deriving DecidableEq, Repr

/-- Fresh player with the given name, as created at game start. -/
def Player.init (nm : String) : Player := { name := nm }

/-- The aggregate engine state (`MonopolyGameEngine` fields). -/
structure GameState where
  players : List Player
  currentIdx : Nat
  phase : GamePhase
  tileDyn : Fin 40 → TileDyn
  lastDice : Nat × Nat
  turnNumber : Nat
  messages : List String
  chanceDeck : List Card
  communityDeck : List Card

/-- Result of an engine operation; models the Python result dictionary as a
record of optional fields, plus two markers for conditions under which the
source would raise (`fault`) or recurse unboundedly (`fuelOut`). -/
structure ActionResult where
  error : Option String := none
  resultText : Option String := none
  dice : Option (Nat × Nat) := none
  doubles : Option Bool := none
  rollAgain : Bool := false
  newPosition : Option (Fin 40) := none
  tileName : Option String := none
  money : Option Int := none
  moneyChange : Option Int := none
  price : Option Nat := none
  canAfford : Option Bool := none
  success : Option Bool := none
  propertyName : Option String := none
  remainingMoney : Option Int := none
  housesOut : Option Nat := none
  cost : Option Nat := none
  received : Option Nat := none
  gameOver : Option Bool := none
  winner : Option (Option String) := none
  nextPlayer : Option String := none
  turn : Option Nat := none
  phaseOut : Option GamePhase := none
  escaped : Option Bool := none
  forcedBail : Option Bool := none
  turnsRemaining : Option Nat := none
  ownerOut : Option (Option String) := none
  mortgagedOut : Option Bool := none
  fault : Bool := false
  fuelOut : Bool := false
deriving DecidableEq, Repr

/-- Default player used for out-of-range list access (never hit by the
engine, whose indices stay in range). -/
def dPlayer : Player := Player.init ""

instance : Inhabited Player := ⟨dPlayer⟩

/-- The current player (`self.players[self.player_order[self.current_player_idx]]`). -/
def GameState.currentPlayer (s : GameState) : Player :=
  s.players.getD s.currentIdx dPlayer

/-- Replace the current player record, modelling in-place mutation of the
current `Player` object. -/
def updCur (s : GameState) (f : Player → Player) : GameState :=
  { s with players := s.players.set s.currentIdx (f s.currentPlayer) }

/-- Update every player whose name matches, modelling
`self.players[name].field = ...` (names are unique dict keys). -/
def updByName (s : GameState) (nm : String) (f : Player → Player) : GameState :=
  { s with players := s.players.map fun q => if q.name = nm then f q else q }

/-- Append a log message, keeping the most recent 50 (`_log`). -/
def logMsg (s : GameState) (m : String) : GameState :=
  let ms := s.messages ++ [m]
  { s with messages := if 50 < ms.length then ms.drop (ms.length - 50) else ms }

/-- Forward movement: `(position + total) % 40`. -/
def addPos (p : Fin 40) (total : Nat) : Fin 40 :=
  ⟨(p.val + total) % 40, Nat.mod_lt _ (by decide)⟩

/-- Backward movement: Python `(position - spaces) % 40` (nonnegative
remainder). -/
def subPos (p : Fin 40) (spaces : Nat) : Fin 40 :=
  ⟨(((p.val : Int) - spaces).emod 40).toNat, by
    have h0 : (0 : Int) ≤ ((p.val : Int) - spaces).emod 40 :=
      Int.emod_nonneg _ (by decide)
    have h1 : ((p.val : Int) - spaces).emod 40 < 40 :=
      Int.emod_lt_of_pos _ (by decide)
    omega⟩

/-- Rent for a tile (`Property.get_rent`).  The call-site default arguments
of the source (`dice_roll=0, railroads_owned=1, utilities_owned=1`) are
passed explicitly by the callers below. -/
def getRent (st : TileStatic) (dyn : TileDyn) (dice_roll railroads_owned utilities_owned : Nat) : Nat :=
  if dyn.is_mortgaged then 0
  else if st.tile_type = .property then st.rent.getD (min dyn.houses 5) 0
  else if st.tile_type = .railroad then
    if railroads_owned = 1 then 25
    else if railroads_owned = 2 then 50
    else if railroads_owned = 3 then 100
    else if railroads_owned = 4 then 200
    else 25
  else if st.tile_type = .utility then
    dice_roll * (if utilities_owned = 2 then 10 else 4)
  else 0

/-- Rent owed for landing on an owned tile (`_calculate_rent`): counts the
railroads / utilities held by the owner. -/
def calculateRent (s : GameState) (pos : Fin 40) (dice : Nat) : Nat :=
  let st := board pos
  let dyn := s.tileDyn pos
  let ownerName := dyn.owner.getD ""
  let owner := (s.players.find? fun q => q.name = ownerName).getD dPlayer
  if st.tile_type = .railroad then
    getRent st dyn 0 (owner.properties.countP fun g => (board g).tile_type = .railroad) 1
  else if st.tile_type = .utility then
    getRent st dyn dice 1 (owner.properties.countP fun g => (board g).tile_type = .utility)
  else getRent st dyn 0 1 1

/-- Send the current player to jail (`_send_to_jail`). -/
def sendToJail (s : GameState) (reason : String) : GameState :=
  let s := updCur s fun p =>
    { p with position := 10, in_jail := true, jail_turns := 0, doubles_count := 0 }
  let s := { s with phase := .turnComplete }
  logMsg s ("sent to jail " ++ reason)

/-- Landing resolution (`_handle_landing`), with the card draw
(`_draw_card`) inlined at the Chance / Community Chest branch.  `fC`/`fCC`
supply the shuffle outcome used when a deck is found empty (note that the
source binds that fresh shuffled copy to a local variable only, so the
persistent deck field is NOT updated in that case).  The recursion of the
source (a drawn movement card re-resolves the landing) is bounded by `fuel`.
-/
def handleLanding (fC fCC : Nat → List Card) : Nat → GameState → Nat → GameState × ActionResult
  | 0, s, _ => (s, { fuelOut := true })
  | Nat.succ fuel, s, diceTotal =>
    let p := s.currentPlayer
    let st := board p.position
    let dyn := s.tileDyn p.position
    if st.tile_type = .goToJail then
      (sendToJail s "landed on Go To Jail", { resultText := some "Go to Jail!" })
    else if st.tile_type = .tax then
      let s := updCur s fun q => { q with money := q.money - st.amount }
      let s := logMsg s "paid tax"
      ({ s with phase := .turnComplete }, { resultText := some "Paid tax" })
    else if st.tile_type = .chance ∨ st.tile_type = .communityChest then
      let isChance := st.tile_type = .chance
      let persistent := if isChance then s.chanceDeck else s.communityDeck
      let deck := if persistent.isEmpty then (if isChance then fC fuel else fCC fuel) else persistent
      match deck with
      | [] => (s, { fault := true })
      | card :: rest =>
        let s :=
          if persistent.isEmpty then s
          else if isChance then { s with chanceDeck := rest }
          else { s with communityDeck := rest }
        let s := logMsg s "drew a card"
        match card with
        | .money amt text =>
          let s := updCur s fun q => { q with money := q.money + amt }
          ({ s with phase := .turnComplete },
            { resultText := some text, moneyChange := some amt })
        | .move dest _ =>
          let old := (s.currentPlayer).position
          let s := updCur s fun q => { q with position := dest }
          let s := if dest.val < old.val
            then updCur s fun q => { q with money := q.money + 200 } else s
          let s := { s with phase := .turnComplete }
          handleLanding fC fCC fuel s (s.lastDice.1 + s.lastDice.2)
        | .moveBack spaces _ =>
          let s := updCur s fun q => { q with position := subPos q.position spaces }
          let s := { s with phase := .turnComplete }
          handleLanding fC fCC fuel s (s.lastDice.1 + s.lastDice.2)
        | .jailCard _ =>
          let s := updCur s fun q => { q with jail_cards := q.jail_cards + 1 }
          ({ s with phase := .turnComplete },
            { resultText := some "Received Get Out of Jail Free card" })
        | .goToJail _ =>
          (sendToJail s "card", { resultText := some "Go to Jail!" })
    else if st.tile_type = .property ∨ st.tile_type = .railroad ∨ st.tile_type = .utility then
      match dyn.owner with
      | none =>
        ({ s with phase := .waitingForBuyDecision },
          { resultText := some "unowned_property", price := some st.price,
            canAfford := some (decide (st.price ≤ p.money)) })
      | some ownerName =>
        if ownerName ≠ p.name then
          let rent := calculateRent s p.position diceTotal
          let s := updCur s fun q => { q with money := q.money - rent }
          let s := updByName s ownerName fun q => { q with money := q.money + rent }
          let s := logMsg s "paid rent"
          ({ s with phase := .turnComplete }, { resultText := some "Paid rent" })
        else
          ({ s with phase := .turnComplete }, { resultText := some "Landed on own property" })
    else
      ({ s with phase := .turnComplete }, { resultText := some "Nothing happens" })

/-- The movement-and-GO-award step of `roll_and_move` (source lines
`p.position = (p.position + total) % 40` through the pass-GO credit). -/
def moveStep (s : GameState) (total : Nat) : GameState :=
  let oldPos := s.currentPlayer.position
  let s := updCur s fun q => { q with position := addPos q.position total }
  let newPos := s.currentPlayer.position
  if newPos.val < oldPos.val ∧ newPos.val ≠ 10 then
    logMsg (updCur s fun q => { q with money := q.money + 200 }) "passed GO and collected 200"
  else s

/-- The `roll_and_move` operation.  The dice values are passed explicitly. -/
def rollAndMove (fC fCC : Nat → List Card) (fuel : Nat) (s : GameState) (d1 d2 : Nat) :
    GameState × ActionResult :=
  if s.phase = .inJail then
    (s, { error := some "You are in jail. Use jail actions instead." })
  else if s.phase ≠ .waitingForRoll then
    (s, { error := some "Cannot roll now." })
  else
    let s := { s with lastDice := (d1, d2) }
    let total := d1 + d2
    let isDoubles := d1 = d2
    let s := logMsg s "rolled the dice"
    let rollOn : GameState → GameState × ActionResult := fun s =>
      let s := moveStep s total
      let tileName := (board s.currentPlayer.position).name
      let s := logMsg s "landed on a tile"
      let out := handleLanding fC fCC fuel s total
      let s := out.1
      let r := { out.2 with dice := some (d1, d2), doubles := some isDoubles,
                            newPosition := some s.currentPlayer.position,
                            tileName := some tileName,
                            money := some s.currentPlayer.money }
      if isDoubles ∧ s.phase = .turnComplete then
        ({ s with phase := .waitingForRoll }, { r with rollAgain := true })
      else (s, r)
    if isDoubles then
      let s := updCur s fun q => { q with doubles_count := q.doubles_count + 1 }
      if 3 ≤ s.currentPlayer.doubles_count then
        (sendToJail s "three doubles",
          { dice := some (d1, d2), doubles := some true,
            resultText := some "Sent to jail for 3 doubles!" })
      else rollOn s
    else rollOn (updCur s fun q => { q with doubles_count := 0 })

/-- The `buy_current_property` operation. -/
def buyCurrentProperty (s : GameState) : GameState × ActionResult :=
  if s.phase ≠ .waitingForBuyDecision then
    (s, { error := some "No property available to buy" })
  else
    let p := s.currentPlayer
    let pos := p.position
    let st := board pos
    if p.money < st.price then
      (s, { error := some "Not enough money." })
    else
      let s := updCur s fun q => { q with money := q.money - st.price }
      let newDyn := { s.tileDyn pos with owner := some p.name }
      let s := { s with tileDyn := Function.update s.tileDyn pos newDyn }
      let s := updCur s fun q => { q with properties := q.properties ++ [pos] }
      let s := logMsg s "bought a property"
      let s := { s with phase := .turnComplete }
      (s, { success := some true, propertyName := some st.name, price := some st.price,
            remainingMoney := some s.currentPlayer.money })

/-- The `decline_purchase` operation. -/
def declinePurchase (s : GameState) : GameState × ActionResult :=
  if s.phase ≠ .waitingForBuyDecision then
    (s, { error := some "No property to decline" })
  else
    let st := board s.currentPlayer.position
    let s := { s with phase := .turnComplete }
    let s := logMsg s "declined property purchase"
    (s, { success := some true, propertyName := some st.name })

/-- The `pay_bail` operation. -/
def payBail (s : GameState) : GameState × ActionResult :=
  let p := s.currentPlayer
  if ¬p.in_jail then (s, { error := some "Not in jail" })
  else if p.money < 50 then (s, { error := some "Not enough money for bail" })
  else
    let s := updCur s fun q => { q with money := q.money - 50, in_jail := false, jail_turns := 0 }
    let s := { s with phase := .waitingForRoll }
    let s := logMsg s "paid 50 bail"
    (s, { success := some true, remainingMoney := some s.currentPlayer.money })

/-- The `use_jail_card` operation. -/
def useJailCard (s : GameState) : GameState × ActionResult :=
  let p := s.currentPlayer
  if ¬p.in_jail then (s, { error := some "Not in jail" })
  else if p.jail_cards < 1 then (s, { error := some "No jail cards" })
  else
    let s := updCur s fun q =>
      { q with jail_cards := q.jail_cards - 1, in_jail := false, jail_turns := 0 }
    let s := { s with phase := .waitingForRoll }
    let s := logMsg s "used Get Out of Jail Free card"
    (s, { success := some true })

/-- The `roll_for_doubles` operation (dice passed explicitly). -/
def rollForDoubles (s : GameState) (d1 d2 : Nat) : GameState × ActionResult :=
  let p := s.currentPlayer
  if ¬p.in_jail then (s, { error := some "Not in jail" })
  else
    let s := { s with lastDice := (d1, d2) }
    let s := logMsg s "rolled trying for doubles"
    if d1 = d2 then
      let s := updCur s fun q => { q with in_jail := false, jail_turns := 0 }
      let s := { s with phase := .waitingForRoll }
      let s := logMsg s "rolled doubles and escaped jail"
      (s, { success := some true, dice := some (d1, d2), escaped := some true })
    else
      let s := updCur s fun q => { q with jail_turns := q.jail_turns + 1 }
      if 3 ≤ s.currentPlayer.jail_turns then
        let s := updCur s fun q => { q with money := q.money - 50, in_jail := false, jail_turns := 0 }
        let s := { s with phase := .waitingForRoll }
        let s := logMsg s "forced to pay 50 after 3 turns"
        (s, { dice := some (d1, d2), escaped := some false, forcedBail := some true })
      else
        ({ s with phase := .turnComplete },
          { dice := some (d1, d2), escaped := some false,
            turnsRemaining := some (3 - s.currentPlayer.jail_turns) })

/-- The minimum house count over a color group (the `min(...)` of
`_get_buildable_properties`; the empty case cannot arise for board
property tiles). -/
def groupMinHouses (s : GameState) (group : List (Fin 40)) : Nat :=
  match group.map fun g => (s.tileDyn g).houses with
  | [] => 0
  | h :: t => t.foldl min h

/-- The `_get_buildable_properties` helper. -/
def getBuildable (s : GameState) (p : Player) : List (Fin 40) :=
  p.properties.filter fun pos =>
    if (board pos).tile_type ≠ .property ∨ 5 ≤ (s.tileDyn pos).houses ∨
        (s.tileDyn pos).is_mortgaged then false
    else
      if (colorGroups (board pos).color_group).all fun g => g ∈ p.properties then
        decide ((s.tileDyn pos).houses ≤ groupMinHouses s (colorGroups (board pos).color_group) ∧
          ((board pos).house_cost : Int) ≤ p.money)
      else false

/-- The `build_house` operation. -/
def buildHouse (s : GameState) (position : Fin 40) : GameState × ActionResult :=
  let p := s.currentPlayer
  if position ∉ p.properties then
    (s, { error := some "You do not own this property" })
  else
    let st := board position
    if position ∉ getBuildable s p then
      (s, { error := some "Cannot build here. Check monopoly ownership and even building rules." })
    else
      let s := updCur s fun q => { q with money := q.money - st.house_cost }
      let newDyn := { s.tileDyn position with houses := (s.tileDyn position).houses + 1 }
      let s := { s with tileDyn := Function.update s.tileDyn position newDyn }
      let s := logMsg s "built on a property"
      (s, { success := some true, propertyName := some st.name,
            housesOut := some ((s.tileDyn position).houses), cost := some st.house_cost })

/-- The `mortgage_property` operation. -/
def mortgageProperty (s : GameState) (position : Fin 40) : GameState × ActionResult :=
  let p := s.currentPlayer
  if position ∉ p.properties then
    (s, { error := some "You do not own this property" })
  else
    let st := board position
    let dyn := s.tileDyn position
    if dyn.is_mortgaged then (s, { error := some "Already mortgaged" })
    else if 0 < dyn.houses then (s, { error := some "Sell houses first" })
    else
      let newDyn := { dyn with is_mortgaged := true }
      let s := { s with tileDyn := Function.update s.tileDyn position newDyn }
      let s := updCur s fun q => { q with money := q.money + st.mortgage_value }
      let s := logMsg s "mortgaged a property"
      (s, { success := some true, propertyName := some st.name,
            received := some st.mortgage_value })

/-- Round-to-nearest of `p / q`, ties to even (the IEEE-754 rounding used
below). -/
def rne (p q : Nat) : Nat :=
  let d := p / q
  let r := p % q
  if 2 * r < q then d
  else if q < 2 * r then d + 1
  else if d % 2 = 0 then d else d + 1

/-- Floor of the base-2 logarithm, by fuelled halving (exact whenever
`n < 2 ^ fuel`; structural so that the kernel can evaluate it). -/
def flog2 : Nat → Nat → Nat
  | 0, _ => 0
  | Nat.succ fuel, n => if n < 2 then 0 else flog2 fuel (n / 2) + 1

/-- The value of the Python expression `int(mv * 1.1)`: `mv` is converted
exactly to an IEEE-754 double, multiplied by the double nearest to 1.1
(`4953959590107546 / 2^52`) with one round-to-nearest-even, and the result
truncated towards zero (exact for every `mv < 2 ^ 70`). -/
def pyInt11 (mv : Nat) : Nat :=
  if mv = 0 then 0
  else
    let P := mv * 4953959590107546
    let e := flog2 128 P - 52
    let m := rne P (2 ^ e)
    m * 2 ^ e / 2 ^ 52

/-- The `unmortgage_property` operation.  The surcharge computation
`int(tile.mortgage_value * 1.1)` is modelled exactly by `pyInt11`. -/
def unmortgageProperty (s : GameState) (position : Fin 40) : GameState × ActionResult :=
  let p := s.currentPlayer
  if position ∉ p.properties then
    (s, { error := some "You do not own this property" })
  else
    let st := board position
    let dyn := s.tileDyn position
    if ¬dyn.is_mortgaged then (s, { error := some "Not mortgaged" })
    else
      let cost := pyInt11 st.mortgage_value
      if p.money < cost then (s, { error := some "Not enough to unmortgage" })
      else
        let s := updCur s fun q => { q with money := q.money - cost }
        let newDyn := { dyn with is_mortgaged := false }
        let s := { s with tileDyn := Function.update s.tileDyn position newDyn }
        let s := logMsg s "unmortgaged a property"
        (s, { success := some true, propertyName := some st.name, cost := some cost })

/-- Bounded model of the `while ... bankrupt` advance loop of `end_turn`:
starting at `start`, step forward modulo the player count until a
non-bankrupt player is found (exact whenever one exists within `fuel`
steps, which `end_turn` guarantees). -/
def findNextActive (ps : List Player) (start : Nat) : Nat → Nat
  | 0 => start
  | Nat.succ fuel =>
    if (ps.getD start dPlayer).bankrupt then
      findNextActive ps ((start + 1) % ps.length) fuel
    else start

/-- The `end_turn` operation. -/
def endTurn (s : GameState) : GameState × ActionResult :=
  if s.phase ≠ .turnComplete then
    (s, { error := some "Cannot end turn in this phase" })
  else
    let s := updCur s fun q => { q with doubles_count := 0 }
    let s :=
      if s.currentPlayer.money < 0 then
        logMsg (updCur s fun q => { q with bankrupt := true }) "is BANKRUPT"
      else s
    let active := s.players.filter fun q => ¬q.bankrupt
    if active.length ≤ 1 then
      ({ s with phase := .gameOver },
        { gameOver := some true, winner := some (active.head?.map Player.name) })
    else
      let n := s.players.length
      let idx := findNextActive s.players ((s.currentIdx + 1) % n) n
      let s := { s with currentIdx := idx, turnNumber := s.turnNumber + 1 }
      let np := s.currentPlayer
      let s := { s with phase := if np.in_jail then .inJail else .waitingForRoll }
      (s, { success := some true, nextPlayer := some np.name,
            turn := some s.turnNumber, phaseOut := some s.phase })

/-- The `get_property_info` query (pure; the state component is returned
unchanged to give all operations a uniform shape). -/
def getPropertyInfo (s : GameState) (position : Nat) : GameState × ActionResult :=
  if h : position < 40 then
    let pos : Fin 40 := ⟨position, h⟩
    let st := board pos
    let dyn := s.tileDyn pos
    (s, { propertyName := some st.name, price := some st.price,
          ownerOut := some dyn.owner, housesOut := some dyn.houses,
          received := some st.mortgage_value, mortgagedOut := some dyn.is_mortgaged,
          cost := some st.house_cost })
  else (s, { error := some "Invalid position" })

/-- The state produced by engine construction plus `initialize(names)`:
players created in registration order (`Player` defaults per the spec),
fresh tile dynamics, phase `WAITING_FOR_ROLL`, and the two shuffled decks
(the shuffle outcomes `cd`, `ccd` passed explicitly).  The source appends
its start message once per tile iteration, hence 40 copies. -/
def initState (names : List String) (cd ccd : List Card) : GameState where
  players := names.map Player.init
  currentIdx := 0
  phase := .waitingForRoll
  tileDyn := fun _ => {}
  lastDice := (0, 0)
  turnNumber := 0
  messages := List.replicate 40 "Game started"
  chanceDeck := cd
  communityDeck := ccd

/-! ### Basic lemmas about the state helpers -/

theorem getD_set_self {α : Type _} (l : List α) (i : Nat) (a d : α) (h : i < l.length) :
    (l.set i a).getD i d = a := by
  induction l generalizing i with
  | nil => simp at h
  | cons x xs ih =>
    cases i with
    | zero => rfl
    | succ j => simpa using ih j (by simpa using h)

theorem getD_set_ne {α : Type _} (l : List α) (i j : Nat) (a d : α) (hij : i ≠ j) :
    (l.set i a).getD j d = l.getD j d := by
  induction l generalizing i j with
  | nil => rfl
  | cons x xs ih =>
    cases i with
    | zero => cases j with
      | zero => exact absurd rfl hij
      | succ k => rfl
    | succ i' => cases j with
      | zero => rfl
      | succ k => simpa using ih i' k (by omega)

@[simp] theorem updCur_players_length (s : GameState) (f : Player → Player) :
    (updCur s f).players.length = s.players.length := by
  simp [updCur]

@[simp] theorem updCur_tileDyn (s : GameState) (f : Player → Player) :
    (updCur s f).tileDyn = s.tileDyn := rfl

@[simp] theorem updCur_phase (s : GameState) (f : Player → Player) :
    (updCur s f).phase = s.phase := rfl

@[simp] theorem updCur_currentIdx (s : GameState) (f : Player → Player) :
    (updCur s f).currentIdx = s.currentIdx := rfl

@[simp] theorem updCur_chanceDeck (s : GameState) (f : Player → Player) :
    (updCur s f).chanceDeck = s.chanceDeck := rfl

@[simp] theorem updCur_communityDeck (s : GameState) (f : Player → Player) :
    (updCur s f).communityDeck = s.communityDeck := rfl

@[simp] theorem logMsg_players (s : GameState) (m : String) :
    (logMsg s m).players = s.players := rfl

@[simp] theorem logMsg_tileDyn (s : GameState) (m : String) :
    (logMsg s m).tileDyn = s.tileDyn := rfl

@[simp] theorem logMsg_phase (s : GameState) (m : String) :
    (logMsg s m).phase = s.phase := rfl

@[simp] theorem logMsg_currentIdx (s : GameState) (m : String) :
    (logMsg s m).currentIdx = s.currentIdx := rfl

@[simp] theorem logMsg_chanceDeck (s : GameState) (m : String) :
    (logMsg s m).chanceDeck = s.chanceDeck := rfl

@[simp] theorem logMsg_communityDeck (s : GameState) (m : String) :
    (logMsg s m).communityDeck = s.communityDeck := rfl

@[simp] theorem logMsg_currentPlayer (s : GameState) (m : String) :
    (logMsg s m).currentPlayer = s.currentPlayer := rfl

@[simp] theorem logMsg_lastDice (s : GameState) (m : String) :
    (logMsg s m).lastDice = s.lastDice := rfl

@[simp] theorem updCur_lastDice (s : GameState) (f : Player → Player) :
    (updCur s f).lastDice = s.lastDice := rfl

theorem updCur_currentPlayer (s : GameState) (f : Player → Player)
    (h : s.currentIdx < s.players.length) :
    (updCur s f).currentPlayer = f s.currentPlayer :=
  getD_set_self s.players s.currentIdx (f s.currentPlayer) dPlayer h

/-! ### Claim C8: mortgaged tiles yield zero rent -/

/-- C8: for every tile, `get_rent` on a mortgaged tile state returns 0,
regardless of the tile type, house count, dice total, or railroad/utility
counts. -/
theorem mortgaged_rent_zero (st : TileStatic) (dyn : TileDyn)
    (dice rr ut : Nat) (h : dyn.is_mortgaged = true) :
    getRent st dyn dice rr ut = 0 := by
  simp [getRent, h]

/-- Witness for `mortgaged_rent_zero` at a concrete mortgaged Boardwalk
state with a hotel and dice showing 12. -/
theorem mortgaged_rent_zero_witness :
    getRent (board 39) { owner := some "A", houses := 5, is_mortgaged := true } 12 4 2 = 0 :=
  mortgaged_rent_zero (board 39)
    { owner := some "A", houses := 5, is_mortgaged := true } 12 4 2 rfl

/-! ### Claim C7: mortgage / unmortgage round trip -/

/-- On every board tile, the Python surcharge computation
`int(mortgage_value * 1.1)` equals `mortgage_value + mortgage_value / 10`
(the 10 percent surcharge truncated to an integer). -/
theorem board_pyInt11 : ∀ pos : Fin 40,
    pyInt11 (board pos).mortgage_value =
      (board pos).mortgage_value + (board pos).mortgage_value / 10 := by
  decide

/-- C7 (amended to the behaviour of the code in every detail): mortgaging
an owned, unmortgaged, house-free property and immediately unmortgaging it
restores the tile state exactly and costs the owner exactly the integer
truncation of 10 percent of the mortgage value, provided the owner can pay
the unmortgage cost afterwards. -/
theorem mortgage_unmortgage_roundtrip (s : GameState) (pos : Fin 40)
    (hi : s.currentIdx < s.players.length)
    (hmem : pos ∈ s.currentPlayer.properties)
    (hnm : (s.tileDyn pos).is_mortgaged = false)
    (hh : (s.tileDyn pos).houses = 0)
    (hcash : (((board pos).mortgage_value / 10 : Nat) : Int) ≤ s.currentPlayer.money) :
    let s2 := (unmortgageProperty (mortgageProperty s pos).1 pos).1
    s2.tileDyn = s.tileDyn ∧
    s2.currentPlayer.money =
      s.currentPlayer.money - (((board pos).mortgage_value / 10 : Nat) : Int) ∧
    s2.currentPlayer.properties = s.currentPlayer.properties ∧
    s2.currentPlayer.name = s.currentPlayer.name ∧
    s2.phase = s.phase ∧ s2.currentIdx = s.currentIdx ∧
    s2.players.length = s.players.length := by
  intro s2
  set sc := logMsg (updCur { s with tileDyn := Function.update s.tileDyn pos ({ s.tileDyn pos with is_mortgaged := true }) } (fun q => { q with money := q.money + ((board pos).mortgage_value : Int) })) "mortgaged a property" with hsc
  have e_m : (mortgageProperty s pos).1 = sc := by
    simp [mortgageProperty, hmem, hnm, hh, hsc]
  have hcurc : sc.currentPlayer =
      { s.currentPlayer with money := s.currentPlayer.money + ((board pos).mortgage_value : Int) } := by
    rw [hsc, logMsg_currentPlayer]
    exact updCur_currentPlayer _ _ hi
  have hdync : sc.tileDyn pos = { s.tileDyn pos with is_mortgaged := true } := by
    rw [hsc]; simp [Function.update_same]
  have hcost : pyInt11 (board pos).mortgage_value =
      (board pos).mortgage_value + (board pos).mortgage_value / 10 := board_pyInt11 pos
  have hpay : ¬ (s.currentPlayer.money + ((board pos).mortgage_value : Int) <
      (pyInt11 (board pos).mortgage_value : Int)) := by
    rw [hcost]; push_cast; omega
  have e_u : (unmortgageProperty sc pos).1 =
      logMsg { (updCur sc fun q => { q with money := q.money - (pyInt11 (board pos).mortgage_value : Int) }) with
        tileDyn := Function.update sc.tileDyn pos ({ sc.tileDyn pos with is_mortgaged := false }) }
        "unmortgaged a property" := by
    simp [unmortgageProperty, hcurc, hmem, hdync, hpay]
  have hs2 : s2 = (unmortgageProperty (mortgageProperty s pos).1 pos).1 := rfl
  rw [hs2, e_m, e_u]
  have hcur2 : (updCur sc fun q => { q with money := q.money - (pyInt11 (board pos).mortgage_value : Int) }).currentPlayer =
      { sc.currentPlayer with money := sc.currentPlayer.money - (pyInt11 (board pos).mortgage_value : Int) } := by
    refine updCur_currentPlayer _ _ ?_
    rw [hsc]
    simpa using hi
  have htd : Function.update sc.tileDyn pos ({ sc.tileDyn pos with is_mortgaged := false }) = s.tileDyn := by
    rw [hdync, hsc]
    simp only [logMsg_tileDyn, updCur_tileDyn]
    rw [Function.update_idem]
    have he : ({ { s.tileDyn pos with is_mortgaged := true } with is_mortgaged := false } : TileDyn) = s.tileDyn pos := by
      cases h : s.tileDyn pos
      simp_all
    rw [he, Function.update_eq_self]
  refine ⟨htd, ?_, ?_, ?_, ?_, rfl, ?_⟩
  · show (updCur sc fun q => { q with money := q.money - (pyInt11 (board pos).mortgage_value : Int) }).currentPlayer.money = _
    rw [hcur2, hcurc, hcost]
    push_cast
    ring_nf
  · show (updCur sc fun q => { q with money := q.money - (pyInt11 (board pos).mortgage_value : Int) }).currentPlayer.properties = _
    rw [hcur2, hcurc]
  · show (updCur sc fun q => { q with money := q.money - (pyInt11 (board pos).mortgage_value : Int) }).currentPlayer.name = _
    rw [hcur2, hcurc]
  · show sc.phase = s.phase
    rw [hsc]; rfl
  · show (updCur sc fun q => { q with money := q.money - (pyInt11 (board pos).mortgage_value : Int) }).players.length = _
    rw [hsc]
    simp [updCur]


/-- Witness state: a two-player game where player A owns Mediterranean
Avenue (position 1). -/
def c7State : GameState :=
  { players := [{ Player.init "A" with properties := [1] }, Player.init "B"],
    currentIdx := 0, phase := .waitingForRoll,
    tileDyn := Function.update (fun _ => {}) 1 { owner := some "A" },
    lastDice := (0, 0), turnNumber := 0, messages := [],
    chanceDeck := chanceCards, communityDeck := communityCards }

/-- Witness for `mortgage_unmortgage_roundtrip`: player A mortgages and
unmortgages Mediterranean Avenue (mortgage value 30), ending 3 poorer. -/
theorem mortgage_unmortgage_roundtrip_witness :
    let s2 := (unmortgageProperty (mortgageProperty c7State 1).1 1).1
    s2.tileDyn = c7State.tileDyn ∧
    s2.currentPlayer.money =
      c7State.currentPlayer.money - (((board 1).mortgage_value / 10 : Nat) : Int) ∧
    s2.currentPlayer.properties = c7State.currentPlayer.properties ∧
    s2.currentPlayer.name = c7State.currentPlayer.name ∧
    s2.phase = c7State.phase ∧ s2.currentIdx = c7State.currentIdx ∧
    s2.players.length = c7State.players.length :=
  mortgage_unmortgage_roundtrip c7State 1 (by decide) (by decide) (by decide)
    (by decide) (by decide)

/-! ### Claims C1, C2, C3: rolling, movement, decks -/

/-- Two fresh players, A to move from the given position, phase
`WAITING_FOR_ROLL`. -/
def playerAt (pos : Fin 40) : GameState :=
  { players := [{ Player.init "A" with position := pos }, Player.init "B"],
    currentIdx := 0, phase := .waitingForRoll, tileDyn := fun _ => {},
    lastDice := (0, 0), turnNumber := 0, messages := [],
    chanceDeck := chanceCards, communityDeck := communityCards }

/-- C1 (evaluating the code at the failing input): rolling the double
(2,2) from position 26 lands on Go To Jail (position 30); the player is
jailed, but because jail entry leaves the phase at `TURN_COMPLETE`, the
doubles override then fires: the phase ends up `WAITING_FOR_ROLL` and
`roll_again` is reported, contradicting the documented rule that jail
entry ends the doubles privilege. -/
theorem double_into_jail_grants_roll_again :
    (board (addPos (playerAt 26).currentPlayer.position (2 + 2))).tile_type = .goToJail ∧
    ((playerAt 26).currentPlayer.position : Nat) = 26 ∧
    (rollAndMove (fun _ => chanceCards) (fun _ => communityCards) 4
      (playerAt 26) 2 2).1.currentPlayer.in_jail = true ∧
    (rollAndMove (fun _ => chanceCards) (fun _ => communityCards) 4
      (playerAt 26) 2 2).1.phase = .waitingForRoll ∧
    (rollAndMove (fun _ => chanceCards) (fun _ => communityCards) 4
      (playerAt 26) 2 2).2.rollAgain = true := by
  decide

/-- C2 counterexample: a non-double roll of (5,6) from position 39 wraps
around past GO to position 10 (new position 10 < old position 39), yet no
200 is credited, because the source excludes a wrap that lands exactly on
position 10 (`p.position != 10`). -/
theorem wrap_to_jail_tile_no_go_credit :
    let out := rollAndMove (fun _ => chanceCards) (fun _ => communityCards) 4 (playerAt 39) 5 6
    ((playerAt 39).currentPlayer.position : Nat) = 39 ∧
    (out.1.currentPlayer.position : Nat) = 10 ∧
    out.1.currentPlayer.money = (playerAt 39).currentPlayer.money ∧
    out.1.phase = .turnComplete := by
  decide

/-- C3 (evaluating the code at the failing input): drawing on an exhausted
Chance deck (player on the Chance tile at position 7, persistent deck
empty): a card is drawn from a freshly shuffled full copy (here the
identity order, so "Advance to GO": the player moves to 0 and collects
200), but the fresh copy is bound to a local variable only, so the
persistent deck afterwards holds 0 cards, not the 9 undrawn cards. -/
theorem exhausted_deck_not_restored :
    (handleLanding (fun _ => chanceCards) (fun _ => communityCards) 4
      { playerAt 7 with chanceDeck := [] } 3).1.chanceDeck = [] ∧
    (handleLanding (fun _ => chanceCards) (fun _ => communityCards) 4
      { playerAt 7 with chanceDeck := [] } 3).1.chanceDeck.length ≠ 9 ∧
    ((handleLanding (fun _ => chanceCards) (fun _ => communityCards) 4
      { playerAt 7 with chanceDeck := [] } 3).1.currentPlayer.position : Nat) = 0 ∧
    (handleLanding (fun _ => chanceCards) (fun _ => communityCards) 4
      { playerAt 7 with chanceDeck := [] } 3).1.currentPlayer.money =
      (playerAt 7).currentPlayer.money + 200 := by
  decide

theorem getD_map {α β : Type _} (l : List α) (g : α → β) (i : Nat) (d : β) (d' : α)
    (h : i < l.length) : (l.map g).getD i d = g (l.getD i d') := by
  induction l generalizing i with
  | nil => simp at h
  | cons x xs ih =>
    cases i with
    | zero => rfl
    | succ j => simpa using ih j (by simpa using h)

@[simp] theorem updByName_players_length (s : GameState) (nm : String) (f : Player → Player) :
    (updByName s nm f).players.length = s.players.length := by
  simp [updByName]

@[simp] theorem updByName_tileDyn (s : GameState) (nm : String) (f : Player → Player) :
    (updByName s nm f).tileDyn = s.tileDyn := rfl

@[simp] theorem updByName_phase (s : GameState) (nm : String) (f : Player → Player) :
    (updByName s nm f).phase = s.phase := rfl

@[simp] theorem updByName_currentIdx (s : GameState) (nm : String) (f : Player → Player) :
    (updByName s nm f).currentIdx = s.currentIdx := rfl

theorem updByName_currentPlayer (s : GameState) (nm : String) (f : Player → Player)
    (h : s.currentIdx < s.players.length) :
    (updByName s nm f).currentPlayer =
      if s.currentPlayer.name = nm then f s.currentPlayer else s.currentPlayer := by
  show (s.players.map _).getD s.currentIdx dPlayer = _
  rw [getD_map s.players _ s.currentIdx dPlayer dPlayer h]
  rfl

/-- The movement step of `roll_and_move` always sets the position to
`(old + total) % 40`, and credits exactly 200 exactly when the new
position is below the old one and different from 10. -/
theorem moveStep_spec (s : GameState) (total : Nat) (hi : s.currentIdx < s.players.length) :
    ((moveStep s total).currentPlayer.position : Nat) = (s.currentPlayer.position.val + total) % 40 ∧
    (moveStep s total).currentPlayer.money = s.currentPlayer.money +
      (if (s.currentPlayer.position.val + total) % 40 < s.currentPlayer.position.val ∧
          (s.currentPlayer.position.val + total) % 40 ≠ 10 then 200 else 0) := by
  have h1 : (updCur s fun q => { q with position := addPos q.position total }).currentPlayer
      = { s.currentPlayer with position := addPos s.currentPlayer.position total } :=
    updCur_currentPlayer _ _ hi
  have hi1 : (updCur s fun q => { q with position := addPos q.position total }).currentIdx <
      (updCur s fun q => { q with position := addPos q.position total }).players.length := by
    simpa using hi
  have h2 := updCur_currentPlayer _ (fun q => { q with money := q.money + 200 }) hi1
  rw [h1] at h2
  constructor
  · simp only [moveStep]
    split
    next hcc =>
      simp only [logMsg_currentPlayer, h2]
      rfl
    next hcc =>
      simp only [h1]
      rfl
  · simp only [moveStep]
    split
    next hcc =>
      rw [h1] at hcc
      have hcc2 : (s.currentPlayer.position.val + total) % 40 < s.currentPlayer.position.val ∧
          (s.currentPlayer.position.val + total) % 40 ≠ 10 := hcc
      simp only [logMsg_currentPlayer, h2]
      rw [if_pos hcc2]
    next hcc =>
      rw [h1] at hcc
      have hcc2 : ¬ ((s.currentPlayer.position.val + total) % 40 < s.currentPlayer.position.val ∧
          (s.currentPlayer.position.val + total) % 40 ≠ 10) := hcc
      simp only [h1]
      rw [if_neg hcc2]
      simp

theorem updByName_updCur_position (s : GameState) (f g : Player → Player) (nm : String)
    (hi : s.currentIdx < s.players.length)
    (hf : ∀ q, (f q).position = q.position) (hg : ∀ q, (g q).position = q.position) :
    (updByName (updCur s f) nm g).currentPlayer.position = s.currentPlayer.position := by
  rw [updByName_currentPlayer _ _ _ (by simpa using hi)]
  rw [updCur_currentPlayer _ _ hi]
  split
  · rw [hg, hf]
  · rw [hf]

/-- On a tile that is not Chance, not Community Chest and not Go To Jail,
landing resolution never changes the current player's position. -/
theorem handleLanding_plain_position (fC fCC : Nat → List Card) (fuel : Nat)
    (s : GameState) (total : Nat) (hi : s.currentIdx < s.players.length)
    (h1 : (board s.currentPlayer.position).tile_type ≠ .chance)
    (h2 : (board s.currentPlayer.position).tile_type ≠ .communityChest)
    (h3 : (board s.currentPlayer.position).tile_type ≠ .goToJail) :
    (handleLanding fC fCC (fuel + 1) s total).1.currentPlayer.position =
      s.currentPlayer.position := by
  simp only [handleLanding]
  rw [if_neg h3]
  by_cases htax : (board s.currentPlayer.position).tile_type = .tax
  · rw [if_pos htax]
    show (updCur s fun q => { q with money := q.money - ((board s.currentPlayer.position).amount : Int) }).currentPlayer.position = _
    rw [updCur_currentPlayer _ _ hi]
  · rw [if_neg htax, if_neg (by tauto)]
    by_cases hown : ((board s.currentPlayer.position).tile_type = .property ∨
        (board s.currentPlayer.position).tile_type = .railroad ∨
        (board s.currentPlayer.position).tile_type = .utility)
    · rw [if_pos hown]
      cases ho : (s.tileDyn s.currentPlayer.position).owner with
      | none =>
        simp only [ho]
        rfl
      | some o =>
        simp only [ho]
        split
        · show (updByName (updCur s fun q => { q with money := q.money - (calculateRent s s.currentPlayer.position total : Int) }) o fun q => { q with money := q.money + (calculateRent s s.currentPlayer.position total : Int) }).currentPlayer.position = _
          exact updByName_updCur_position s _ _ o hi (fun q => rfl) (fun q => rfl)
        · rfl
    · rw [if_neg hown]
      rfl

set_option maxHeartbeats 1000000 in
/-- C2 (amended to the behaviour of the code): the movement step of
`roll_and_move` sets the position to `(old + d1 + d2) % 40` and credits
exactly 200 exactly when the move wraps (new position strictly below the
old) AND the new position is not 10 — a wrap that lands exactly on the
jail tile (position 10) is NOT credited; landing exactly on position 0
collects the 200 exactly once.  On landing tiles that do not relocate the
player (not Chance, Community Chest or Go To Jail), the position after
the whole `roll_and_move` call is exactly `(old + d1 + d2) % 40`. -/
@[simp] theorem moveStep_players_length (s : GameState) (total : Nat) :
    (moveStep s total).players.length = s.players.length := by
  simp only [moveStep]
  split <;> simp

@[simp] theorem moveStep_currentIdx (s : GameState) (total : Nat) :
    (moveStep s total).currentIdx = s.currentIdx := by
  simp only [moveStep]
  split <;> rfl

@[simp] theorem moveStep_chanceDeck (s : GameState) (total : Nat) :
    (moveStep s total).chanceDeck = s.chanceDeck := by
  simp only [moveStep]
  split <;> simp

@[simp] theorem moveStep_communityDeck (s : GameState) (total : Nat) :
    (moveStep s total).communityDeck = s.communityDeck := by
  simp only [moveStep]
  split <;> simp

/-- After the movement step and the landing log entry, landing resolution
on a non-relocating tile leaves the player exactly on
`(old + total) % 40`. -/
theorem rollOn_position_aux (fC fCC : Nat → List Card) (fuel total : Nat)
    (sB s : GameState)
    (hidx : sB.currentIdx = s.currentIdx)
    (hlen : sB.players.length = s.players.length)
    (hpos : sB.currentPlayer.position = s.currentPlayer.position)
    (hi : s.currentIdx < s.players.length)
    (hdest : (board (addPos s.currentPlayer.position total)).tile_type ≠ .chance ∧
             (board (addPos s.currentPlayer.position total)).tile_type ≠ .communityChest ∧
             (board (addPos s.currentPlayer.position total)).tile_type ≠ .goToJail) :
    (handleLanding fC fCC (fuel + 1) (logMsg (moveStep sB total) "landed on a tile") total).1.currentPlayer.position =
      addPos s.currentPlayer.position total := by
  have hiB : sB.currentIdx < sB.players.length := by rw [hidx, hlen]; exact hi
  have hposM : (logMsg (moveStep sB total) "landed on a tile").currentPlayer.position =
      addPos s.currentPlayer.position total := by
    rw [logMsg_currentPlayer]
    have hv := (moveStep_spec sB total hiB).1
    have : (moveStep sB total).currentPlayer.position = addPos sB.currentPlayer.position total :=
      Fin.ext hv
    rw [this, hpos]
  have hiM : (logMsg (moveStep sB total) "landed on a tile").currentIdx <
      (logMsg (moveStep sB total) "landed on a tile").players.length := by
    simpa [hidx, hlen] using hi
  rw [handleLanding_plain_position fC fCC fuel _ total hiM
    (by rw [hposM]; exact hdest.1) (by rw [hposM]; exact hdest.2.1) (by rw [hposM]; exact hdest.2.2)]
  exact hposM

set_option maxHeartbeats 1000000 in
/-- C2 (amended to the behaviour of the code): the movement step of
`roll_and_move` sets the position to `(old + d1 + d2) % 40` and credits
exactly 200 exactly when the move wraps (new position strictly below the
old) AND the new position is not 10 — a wrap that lands exactly on the
jail tile (position 10) is NOT credited; landing exactly on position 0
collects the 200 exactly once.  On landing tiles that do not relocate the
player (not Chance, Community Chest or Go To Jail), the position after
the whole `roll_and_move` call is exactly `(old + d1 + d2) % 40`. -/
theorem roll_position_and_go_award (fC fCC : Nat → List Card) (fuel : Nat)
    (s : GameState) (d1 d2 : Nat)
    (hi : s.currentIdx < s.players.length)
    (hph : s.phase = .waitingForRoll)
    (hnd : ¬ (d1 = d2 ∧ 3 ≤ s.currentPlayer.doubles_count + 1))
    (hdest : (board (addPos s.currentPlayer.position (d1 + d2))).tile_type ≠ .chance ∧
             (board (addPos s.currentPlayer.position (d1 + d2))).tile_type ≠ .communityChest ∧
             (board (addPos s.currentPlayer.position (d1 + d2))).tile_type ≠ .goToJail) :
    (((rollAndMove fC fCC (fuel + 1) s d1 d2).1.currentPlayer.position : Nat) =
        (s.currentPlayer.position.val + (d1 + d2)) % 40) ∧
    (∀ (s' : GameState) (total : Nat), s'.currentIdx < s'.players.length →
      ((moveStep s' total).currentPlayer.position : Nat) =
          (s'.currentPlayer.position.val + total) % 40 ∧
      (moveStep s' total).currentPlayer.money = s'.currentPlayer.money +
        (if (s'.currentPlayer.position.val + total) % 40 < s'.currentPlayer.position.val ∧
            (s'.currentPlayer.position.val + total) % 40 ≠ 10 then 200 else 0)) := by
  refine ⟨?_, fun s' total h => moveStep_spec s' total h⟩
  have hnj : ¬ (s.phase = GamePhase.inJail) := by rw [hph]; intro hcon; cases hcon
  have hwr : ¬ (s.phase ≠ GamePhase.waitingForRoll) := by rw [hph]; simp
  simp only [rollAndMove]
  rw [if_neg hnj, if_neg hwr]
  by_cases hd : d1 = d2
  · rw [if_pos hd]
    have e1 : (updCur (logMsg { s with lastDice := (d1, d2) } "rolled the dice")
          fun q => { q with doubles_count := q.doubles_count + 1 }).currentPlayer =
        { s.currentPlayer with doubles_count := s.currentPlayer.doubles_count + 1 } :=
      updCur_currentPlayer _ _ hi
    have h3 : ¬ (3 ≤ (updCur (logMsg { s with lastDice := (d1, d2) } "rolled the dice")
        fun q => { q with doubles_count := q.doubles_count + 1 }).currentPlayer.doubles_count) := by
      rw [e1]
      exact fun hle => hnd ⟨hd, hle⟩
    rw [if_neg h3]
    have haux := rollOn_position_aux fC fCC fuel (d1 + d2)
      (updCur (logMsg { s with lastDice := (d1, d2) } "rolled the dice")
        fun q => { q with doubles_count := q.doubles_count + 1 }) s rfl (by simp) (by rw [e1]) hi hdest
    split
    · exact congrArg Fin.val haux
    · exact congrArg Fin.val haux
  · rw [if_neg hd]
    have e1 : (updCur (logMsg { s with lastDice := (d1, d2) } "rolled the dice")
          fun q => { q with doubles_count := 0 }).currentPlayer =
        { s.currentPlayer with doubles_count := 0 } :=
      updCur_currentPlayer _ _ hi
    have haux := rollOn_position_aux fC fCC fuel (d1 + d2)
      (updCur (logMsg { s with lastDice := (d1, d2) } "rolled the dice")
        fun q => { q with doubles_count := 0 }) s rfl (by simp) (by rw [e1]) hi hdest
    split
    · exact congrArg Fin.val haux
    · exact congrArg Fin.val haux

/-- Witness for `roll_position_and_go_award`: from position 0 with dice
(1,2), the player ends on position 3 (Baltic Avenue, a plain property
tile). -/
theorem roll_position_and_go_award_witness :
    (((rollAndMove (fun _ => chanceCards) (fun _ => communityCards) (3 + 1) (playerAt 0) 1 2).1.currentPlayer.position : Nat) =
        ((playerAt 0).currentPlayer.position.val + (1 + 2)) % 40) ∧
    (∀ (s' : GameState) (total : Nat), s'.currentIdx < s'.players.length →
      ((moveStep s' total).currentPlayer.position : Nat) =
          (s'.currentPlayer.position.val + total) % 40 ∧
      (moveStep s' total).currentPlayer.money = s'.currentPlayer.money +
        (if (s'.currentPlayer.position.val + total) % 40 < s'.currentPlayer.position.val ∧
            (s'.currentPlayer.position.val + total) % 40 ≠ 10 then 200 else 0)) :=
  roll_position_and_go_award (fun _ => chanceCards) (fun _ => communityCards) 3
    (playerAt 0) 1 2 (by decide) (by decide) (by decide) (by decide)

/-! ### Claim C4: building houses -/

theorem foldl_min_le_self (l : List Nat) (a : Nat) : l.foldl min a ≤ a := by
  induction l generalizing a with
  | nil => exact Nat.le_refl a
  | cons x t ih => exact Nat.le_trans (ih (min a x)) (Nat.min_le_left a x)

theorem foldl_min_le_mem (l : List Nat) (a x : Nat) (hx : x ∈ l) : l.foldl min a ≤ x := by
  induction l generalizing a with
  | nil => cases hx
  | cons y t ih =>
    rcases List.mem_cons.mp hx with h | h
    · subst h
      exact Nat.le_trans (foldl_min_le_self t (min a x)) (Nat.min_le_right a x)
    · exact ih (min a y) h

theorem groupMinHouses_le_of_mem (s : GameState) (group : List (Fin 40)) (g : Fin 40)
    (hg : g ∈ group) : groupMinHouses s group ≤ (s.tileDyn g).houses := by
  unfold groupMinHouses
  cases hmap : group.map fun g => (s.tileDyn g).houses with
  | nil =>
    rw [List.map_eq_nil] at hmap
    subst hmap
    cases hg
  | cons h t =>
    have hx : (s.tileDyn g).houses ∈ h :: t := by
      rw [← hmap]
      exact List.mem_map_of_mem _ hg
    rcases List.mem_cons.mp hx with he | he
    · rw [← he]
      exact foldl_min_le_self t _
    · exact foldl_min_le_mem t h _ he

/-- Every property tile of the board lies in its own color group. -/
theorem board_property_mem_group : ∀ pos : Fin 40,
    (board pos).tile_type = .property → pos ∈ colorGroups (board pos).color_group := by
  decide

/-- Membership in `_get_buildable_properties`, spelled out. -/
theorem mem_getBuildable (s : GameState) (p : Player) (pos : Fin 40) :
    pos ∈ getBuildable s p ↔
      pos ∈ p.properties ∧ (board pos).tile_type = .property ∧
      (s.tileDyn pos).houses < 5 ∧ (s.tileDyn pos).is_mortgaged = false ∧
      (∀ g ∈ colorGroups (board pos).color_group, g ∈ p.properties) ∧
      (s.tileDyn pos).houses ≤ groupMinHouses s (colorGroups (board pos).color_group) ∧
      ((board pos).house_cost : Int) ≤ p.money := by
  rw [getBuildable, List.mem_filter]
  constructor
  · rintro ⟨hmem, hp⟩
    split at hp
    · exact absurd hp (by simp)
    next hc1 =>
      push_neg at hc1
      obtain ⟨ht, h5, hm⟩ := hc1
      split at hp
      next hall =>
        simp only [decide_eq_true_eq] at hp
        refine ⟨hmem, ht, by omega, by simpa using hm, ?_, hp.1, hp.2⟩
        intro g hg
        rw [List.all_eq_true] at hall
        simpa using hall g hg
      next hall => exact absurd hp (by simp)
  · rintro ⟨hmem, ht, h5, hm, hgrp, hmin, hcost⟩
    refine ⟨hmem, ?_⟩
    have hc1 : ¬ ((board pos).tile_type ≠ .property ∨ 5 ≤ (s.tileDyn pos).houses ∨
        ((s.tileDyn pos).is_mortgaged : Prop)) := by
      push_neg
      exact ⟨ht, by omega, by simp [hm]⟩
    have hall : ((colorGroups (board pos).color_group).all fun g => decide (g ∈ p.properties)) = true := by
      rw [List.all_eq_true]
      intro g hg
      simpa using hgrp g hg
    rw [if_neg hc1, if_pos hall, decide_eq_true_eq]
    exact ⟨hmin, hcost⟩

/-- C4 (amended to the behaviour of the code): `build_house(position)`
succeeds if and only if the current player owns the tile, the tile is a
color-group property that is not mortgaged with house count below 5, the
player owns every position of the color group, the house count equals the
group minimum (even building) and the cash covers the house cost — with NO
phase condition: the source performs no phase check, so builds succeed
even in GAME_OVER.  On success exactly the house cost is deducted and the
house count rises by exactly one; on error nothing changes. -/
theorem build_house_spec (s : GameState) (pos : Fin 40)
    (hi : s.currentIdx < s.players.length) :
    (((buildHouse s pos).2.error = none) ↔
      (pos ∈ s.currentPlayer.properties ∧ (board pos).tile_type = .property ∧
       (s.tileDyn pos).is_mortgaged = false ∧ (s.tileDyn pos).houses < 5 ∧
       (∀ g ∈ colorGroups (board pos).color_group, g ∈ s.currentPlayer.properties) ∧
       (s.tileDyn pos).houses = groupMinHouses s (colorGroups (board pos).color_group) ∧
       ((board pos).house_cost : Int) ≤ s.currentPlayer.money)) ∧
    ((buildHouse s pos).2.error = none →
      ((buildHouse s pos).1.currentPlayer.money =
          s.currentPlayer.money - ((board pos).house_cost : Int) ∧
       (buildHouse s pos).1.tileDyn pos =
          { s.tileDyn pos with houses := (s.tileDyn pos).houses + 1 } ∧
       (∀ q, q ≠ pos → (buildHouse s pos).1.tileDyn q = s.tileDyn q) ∧
       (buildHouse s pos).1.phase = s.phase)) ∧
    ((buildHouse s pos).2.error ≠ none → (buildHouse s pos).1 = s) := by
  by_cases h1 : pos ∈ s.currentPlayer.properties
  · by_cases h2 : pos ∈ getBuildable s s.currentPlayer
    · have herr : (buildHouse s pos).2.error = none := by
        simp [buildHouse, h1, h2]
      have hstate : (buildHouse s pos).1 =
          { (updCur s fun q => { q with money := q.money - ((board pos).house_cost : Int) }) with
            tileDyn := Function.update s.tileDyn pos
              ({ s.tileDyn pos with houses := (s.tileDyn pos).houses + 1 }),
            messages := (logMsg { (updCur s fun q => { q with money := q.money - ((board pos).house_cost : Int) }) with
              tileDyn := Function.update s.tileDyn pos
                ({ s.tileDyn pos with houses := (s.tileDyn pos).houses + 1 }) } "built on a property").messages } := by
        simp [buildHouse, h1, h2, logMsg]
      refine ⟨?_, ?_, ?_⟩
      · rw [herr]
        simp only [true_iff]
        have hb := (mem_getBuildable s s.currentPlayer pos).mp h2
        have hmemgrp := board_property_mem_group pos hb.2.1
        have hle := groupMinHouses_le_of_mem s (colorGroups (board pos).color_group) pos hmemgrp
        exact ⟨h1, hb.2.1, hb.2.2.2.1, hb.2.2.1, hb.2.2.2.2.1,
          Nat.le_antisymm hb.2.2.2.2.2.1 hle, hb.2.2.2.2.2.2⟩
      · intro _
        rw [hstate]
        refine ⟨?_, ?_, ?_, rfl⟩
        · show (updCur s fun q => { q with money := q.money - ((board pos).house_cost : Int) }).currentPlayer.money = _
          rw [updCur_currentPlayer _ _ hi]
        · simp [Function.update_same]
        · intro q hq
          simp [Function.update_noteq hq]
      · intro hcon
        exact absurd herr hcon
    · have herr : (buildHouse s pos).2.error =
          some "Cannot build here. Check monopoly ownership and even building rules." := by
        simp [buildHouse, h1, h2]
      have hst : (buildHouse s pos).1 = s := by
        simp [buildHouse, h1, h2]
      refine ⟨?_, ?_, fun _ => hst⟩
      · rw [herr]
        constructor
        · intro hcon
          cases hcon
        · rintro ⟨hmem, ht, hm, h5, hgrp, hmin, hcost⟩
          exact absurd ((mem_getBuildable s s.currentPlayer pos).mpr
            ⟨hmem, ht, h5, hm, hgrp, Nat.le_of_eq hmin, hcost⟩) h2
      · intro hcon
        rw [herr] at hcon
        cases hcon
  · have herr : (buildHouse s pos).2.error = some "You do not own this property" := by
      simp [buildHouse, h1]
    have hst : (buildHouse s pos).1 = s := by
      simp [buildHouse, h1]
    refine ⟨?_, ?_, fun _ => hst⟩
    · rw [herr]
      constructor
      · intro hcon
        cases hcon
      · rintro ⟨hmem, hrest⟩
        exact absurd hmem h1
    · intro hcon
      rw [herr] at hcon
      cases hcon

/-- C4 counterexample state: the game is over, the winner A owns the full
brown group with even building and ample cash. -/
def c4State : GameState :=
  { players := [{ Player.init "A" with properties := [1, 3] }, { Player.init "B" with bankrupt := true }],
    currentIdx := 0, phase := .gameOver,
    tileDyn := Function.update (Function.update (fun _ => {}) 1 { owner := some "A" }) 3 { owner := some "A" },
    lastDice := (0, 0), turnNumber := 0, messages := [],
    chanceDeck := chanceCards, communityDeck := communityCards }

/-- C4 counterexample: in phase GAME_OVER (a terminal phase) `build_house`
still succeeds — the claimed non-terminal-phase precondition does not
exist in the code. -/
theorem build_house_succeeds_in_game_over :
    c4State.phase = .gameOver ∧
    (buildHouse c4State 1).2.error = none ∧
    (buildHouse c4State 1).2.success = some true ∧
    ((buildHouse c4State 1).1.tileDyn 1).houses = 1 := by
  decide

/-- Witness for `build_house_spec` at the concrete state `c4State`. -/
theorem build_house_spec_witness :
    (((buildHouse c4State 1).2.error = none) ↔
      ((1 : Fin 40) ∈ c4State.currentPlayer.properties ∧ (board 1).tile_type = .property ∧
       (c4State.tileDyn 1).is_mortgaged = false ∧ (c4State.tileDyn 1).houses < 5 ∧
       (∀ g ∈ colorGroups (board 1).color_group, g ∈ c4State.currentPlayer.properties) ∧
       (c4State.tileDyn 1).houses = groupMinHouses c4State (colorGroups (board 1).color_group) ∧
       ((board 1).house_cost : Int) ≤ c4State.currentPlayer.money)) ∧
    ((buildHouse c4State 1).2.error = none →
      ((buildHouse c4State 1).1.currentPlayer.money =
          c4State.currentPlayer.money - ((board 1).house_cost : Int) ∧
       (buildHouse c4State 1).1.tileDyn 1 =
          { c4State.tileDyn 1 with houses := (c4State.tileDyn 1).houses + 1 } ∧
       (∀ q, q ≠ 1 → (buildHouse c4State 1).1.tileDyn q = c4State.tileDyn q) ∧
       (buildHouse c4State 1).1.phase = c4State.phase)) ∧
    ((buildHouse c4State 1).2.error ≠ none → (buildHouse c4State 1).1 = c4State) :=
  build_house_spec c4State 1 (by decide)

/-! ### Claim C5: end of turn, bankruptcy and rotation -/

/-- The bounded advance loop finds the first non-bankrupt index at or after
`start` (cyclically), whenever one exists within `fuel` steps. -/
theorem findNextActive_spec (ps : List Player) : ∀ (fuel start : Nat),
    start < ps.length →
    (∃ j < fuel, (ps.getD ((start + j) % ps.length) dPlayer).bankrupt = false) →
    ∃ k < fuel, findNextActive ps start fuel = (start + k) % ps.length ∧
      (ps.getD ((start + k) % ps.length) dPlayer).bankrupt = false ∧
      ∀ j < k, (ps.getD ((start + j) % ps.length) dPlayer).bankrupt = true
  | 0, start, _, hex => by
    obtain ⟨j, hj, _⟩ := hex
    omega
  | Nat.succ fuel, start, hstart, hex => by
    have hn : 0 < ps.length := Nat.lt_of_le_of_lt (Nat.zero_le start) hstart
    by_cases hb : (ps.getD start dPlayer).bankrupt
    · have hex2 : ∃ j < fuel,
          (ps.getD (((start + 1) % ps.length + j) % ps.length) dPlayer).bankrupt = false := by
        obtain ⟨j, hj, hjb⟩ := hex
        cases j with
        | zero =>
          rw [Nat.add_zero, Nat.mod_eq_of_lt hstart] at hjb
          rw [hb] at hjb
          cases hjb
        | succ j' =>
          refine ⟨j', by omega, ?_⟩
          rw [Nat.mod_add_mod]
          have : start + 1 + j' = start + (j' + 1) := by omega
          rw [this]
          exact hjb
      obtain ⟨k', hk', heq, hkb, hmin⟩ :=
        findNextActive_spec ps fuel ((start + 1) % ps.length) (Nat.mod_lt _ hn) hex2
      refine ⟨k' + 1, by omega, ?_, ?_, ?_⟩
      · rw [findNextActive, if_pos hb, heq, Nat.mod_add_mod]
        congr 1
        omega
      · rw [Nat.mod_add_mod] at hkb
        have h2 : start + (k' + 1) = start + 1 + k' := by omega
        rw [h2]
        exact hkb
      · intro j hj
        cases j with
        | zero =>
          rw [Nat.add_zero, Nat.mod_eq_of_lt hstart]
          exact hb
        | succ j' =>
          have hj' : j' < k' := by omega
          have := hmin j' hj'
          rw [Nat.mod_add_mod] at this
          have h2 : start + 1 + j' = start + (j' + 1) := by omega
          rw [h2] at this
          exact this
    · refine ⟨0, by omega, ?_, ?_, fun j hj => absurd hj (by omega)⟩
      · rw [findNextActive, if_neg hb, Nat.add_zero, Nat.mod_eq_of_lt hstart]
      · rw [Nat.add_zero, Nat.mod_eq_of_lt hstart]
        simpa using hb

/-- If any non-bankrupt player exists, some cyclic offset from `start`
reaches one. -/
theorem exists_active_offset (ps : List Player) (start : Nat) (hstart : start < ps.length)
    (hact : 1 ≤ (ps.filter fun q => ¬q.bankrupt).length) :
    ∃ j < ps.length, (ps.getD ((start + j) % ps.length) dPlayer).bankrupt = false := by
  have hpos : 0 < (ps.filter fun q => ¬q.bankrupt).length := hact
  rw [List.length_pos] at hpos
  obtain ⟨q, hq⟩ := List.exists_mem_of_ne_nil _ hpos
  rw [List.mem_filter] at hq
  obtain ⟨hqm, hqb⟩ := hq
  have hqb2 : q.bankrupt = false := by simpa using hqb
  obtain ⟨m, hm, hqm2⟩ := List.getElem_of_mem hqm
  by_cases hle : start ≤ m
  · refine ⟨m - start, by omega, ?_⟩
    have h1 : (start + (m - start)) % ps.length = m := by
      rw [Nat.add_sub_cancel' hle, Nat.mod_eq_of_lt hm]
    rw [h1, List.getD_eq_getElem ps dPlayer hm, hqm2]
    exact hqb2
  · refine ⟨m + ps.length - start, by omega, ?_⟩
    have h1 : (start + (m + ps.length - start)) % ps.length = m := by
      have h2 : start + (m + ps.length - start) = m + ps.length := by omega
      rw [h2, Nat.add_mod_right, Nat.mod_eq_of_lt hm]
    rw [h1, List.getD_eq_getElem ps dPlayer hm, hqm2]
    exact hqb2

theorem updCur_players (s : GameState) (f : Player → Player) :
    (updCur s f).players = s.players.set s.currentIdx (f s.currentPlayer) := rfl

/-- Facts about the advance loop of `end_turn` when at least two players
are still active. -/
theorem advance_branch_facts (s : GameState) (ps2 : List Player)
    (hlen : ps2.length = s.players.length)
    (hi : s.currentIdx < s.players.length)
    (hact : 2 ≤ (ps2.filter fun q => ¬q.bankrupt).length) :
    ∃ k, 1 ≤ k ∧ k ≤ s.players.length ∧
      findNextActive ps2 ((s.currentIdx + 1) % ps2.length) ps2.length =
        (s.currentIdx + k) % s.players.length ∧
      (ps2.getD (findNextActive ps2 ((s.currentIdx + 1) % ps2.length) ps2.length) dPlayer).bankrupt = false ∧
      ∀ j, 1 ≤ j → j < k →
        (ps2.getD ((s.currentIdx + j) % s.players.length) dPlayer).bankrupt = true := by
  have hn : 0 < ps2.length := by omega
  have hstart : (s.currentIdx + 1) % ps2.length < ps2.length := Nat.mod_lt _ hn
  have hex := exists_active_offset ps2 ((s.currentIdx + 1) % ps2.length) hstart (by omega)
  obtain ⟨k', hk', heq, hkb, hmin⟩ :=
    findNextActive_spec ps2 ps2.length ((s.currentIdx + 1) % ps2.length) hstart hex
  refine ⟨k' + 1, by omega, by omega, ?_, ?_, ?_⟩
  · rw [heq, Nat.mod_add_mod]
    have h2 : s.currentIdx + 1 + k' = s.currentIdx + (k' + 1) := by omega
    rw [h2, hlen]
  · rw [heq]
    exact hkb
  · intro j hj1 hjk
    cases j with
    | zero => omega
    | succ j' =>
      have := hmin j' (by omega)
      rw [Nat.mod_add_mod] at this
      have h2 : s.currentIdx + 1 + j' = s.currentIdx + (j' + 1) := by omega
      rw [h2, hlen] at this
      exact this

/-- C5: `end_turn` in phase `TURN_COMPLETE` marks the acting player
bankrupt exactly when their cash is negative; if at most one non-bankrupt
player then remains, the phase becomes GAME_OVER with the first remaining
active player (or none) as winner and no rotation; otherwise the current
player index advances to the next non-bankrupt player in registration
order (skipping bankrupt ones), the turn counter increments by one, and
the phase becomes IN_JAIL or WAITING_FOR_ROLL according to the next
player's jail flag. -/
theorem end_turn_spec (s : GameState)
    (hph : s.phase = .turnComplete)
    (hi : s.currentIdx < s.players.length) :
    (((endTurn s).1.players.getD s.currentIdx dPlayer).bankrupt =
        (s.currentPlayer.bankrupt || decide (s.currentPlayer.money < 0))) ∧
    (((endTurn s).1.players.filter fun q => ¬q.bankrupt).length ≤ 1 →
       (endTurn s).1.phase = .gameOver ∧
       (endTurn s).2.winner =
         some ((((endTurn s).1.players.filter fun q => ¬q.bankrupt).head?).map Player.name) ∧
       (endTurn s).1.currentIdx = s.currentIdx ∧
       (endTurn s).1.turnNumber = s.turnNumber) ∧
    (2 ≤ ((endTurn s).1.players.filter fun q => ¬q.bankrupt).length →
       (endTurn s).1.turnNumber = s.turnNumber + 1 ∧
       (∃ k, 1 ≤ k ∧ k ≤ s.players.length ∧
         (endTurn s).1.currentIdx = (s.currentIdx + k) % s.players.length ∧
         ((endTurn s).1.players.getD ((endTurn s).1.currentIdx) dPlayer).bankrupt = false ∧
         (∀ j, 1 ≤ j → j < k →
           ((endTurn s).1.players.getD ((s.currentIdx + j) % s.players.length) dPlayer).bankrupt = true)) ∧
       (endTurn s).1.phase =
         (if ((endTurn s).1.players.getD ((endTurn s).1.currentIdx) dPlayer).in_jail
          then GamePhase.inJail else GamePhase.waitingForRoll)) := by
  have hnp : ¬(s.phase ≠ GamePhase.turnComplete) := by rw [hph]; simp
  have hcur1 : (updCur s fun q => { q with doubles_count := 0 }).currentPlayer
      = { s.currentPlayer with doubles_count := 0 } := updCur_currentPlayer _ _ hi
  simp only [endTurn]
  rw [if_neg hnp]
  split
  next hmny =>
    have hneg : s.currentPlayer.money < 0 := by rw [hcur1] at hmny; exact hmny
    set s2 := logMsg (updCur (updCur s fun q => { q with doubles_count := 0 })
      fun q => { q with bankrupt := true }) "is BANKRUPT" with hs2
    have hp2 : s2.players =
        s.players.set s.currentIdx { s.currentPlayer with doubles_count := 0, bankrupt := true } := by
      rw [hs2, logMsg_players, updCur_players, updCur_players, updCur_currentIdx, hcur1, List.set_set]
    have hlen2 : s2.players.length = s.players.length := by
      rw [hp2, List.length_set]
    have hidx2 : s2.currentIdx = s.currentIdx := by rw [hs2]; rfl
    have hbk : (s2.players.getD s.currentIdx dPlayer).bankrupt =
        (s.currentPlayer.bankrupt || decide (s.currentPlayer.money < 0)) := by
      rw [hp2, getD_set_self _ _ _ _ hi]
      simp [hneg]
    split
    next hact =>
      refine ⟨hbk, fun _ => ⟨rfl, rfl, hidx2, rfl⟩, fun hcon => ?_⟩
      dsimp only at hcon
      omega
    next hact =>
      rw [Nat.not_le] at hact
      refine ⟨hbk, fun hcon => ?_, fun _ => ?_⟩
      · dsimp only at hcon
        omega
      · obtain ⟨k, hk1, hkn, heq, hkb, hmin⟩ :=
          advance_branch_facts s s2.players hlen2 hi (by omega)
        rw [← hidx2] at heq hkb hmin ⊢
        exact ⟨rfl, ⟨k, hk1, hkn, heq, hkb, hmin⟩, rfl⟩
  next hmny =>
    have hnneg : ¬ (s.currentPlayer.money < 0) := by rw [hcur1] at hmny; exact hmny
    set s2 := updCur s fun q => { q with doubles_count := 0 } with hs2
    have hp2 : s2.players =
        s.players.set s.currentIdx { s.currentPlayer with doubles_count := 0 } := by
      rw [hs2, updCur_players]
    have hlen2 : s2.players.length = s.players.length := by
      rw [hp2, List.length_set]
    have hidx2 : s2.currentIdx = s.currentIdx := by rw [hs2]; rfl
    have hbk : (s2.players.getD s.currentIdx dPlayer).bankrupt =
        (s.currentPlayer.bankrupt || decide (s.currentPlayer.money < 0)) := by
      rw [hp2, getD_set_self _ _ _ _ hi]
      simp [hnneg]
    split
    next hact =>
      refine ⟨hbk, fun _ => ⟨rfl, rfl, hidx2, rfl⟩, fun hcon => ?_⟩
      dsimp only at hcon
      omega
    next hact =>
      rw [Nat.not_le] at hact
      refine ⟨hbk, fun hcon => ?_, fun _ => ?_⟩
      · dsimp only at hcon
        omega
      · obtain ⟨k, hk1, hkn, heq, hkb, hmin⟩ :=
          advance_branch_facts s s2.players hlen2 hi (by omega)
        rw [← hidx2] at heq hkb hmin ⊢
        exact ⟨rfl, ⟨k, hk1, hkn, heq, hkb, hmin⟩, rfl⟩

/-- Witness state for C5: three players, the acting player A has negative
cash, B is already bankrupt, C is solvent. -/
def c5State : GameState :=
  { players := [{ Player.init "A" with money := -10 },
                { Player.init "B" with bankrupt := true }, Player.init "C"],
    currentIdx := 0, phase := .turnComplete, tileDyn := fun _ => {},
    lastDice := (0, 0), turnNumber := 5, messages := [],
    chanceDeck := chanceCards, communityDeck := communityCards }

/-- Witness for `end_turn_spec` at `c5State`: A goes bankrupt, a single
active player remains, so the game ends with C as winner. -/
theorem end_turn_spec_witness :
    (((endTurn c5State).1.players.getD c5State.currentIdx dPlayer).bankrupt =
        (c5State.currentPlayer.bankrupt || decide (c5State.currentPlayer.money < 0))) ∧
    (((endTurn c5State).1.players.filter fun q => ¬q.bankrupt).length ≤ 1 →
       (endTurn c5State).1.phase = .gameOver ∧
       (endTurn c5State).2.winner =
         some ((((endTurn c5State).1.players.filter fun q => ¬q.bankrupt).head?).map Player.name) ∧
       (endTurn c5State).1.currentIdx = c5State.currentIdx ∧
       (endTurn c5State).1.turnNumber = c5State.turnNumber) ∧
    (2 ≤ ((endTurn c5State).1.players.filter fun q => ¬q.bankrupt).length →
       (endTurn c5State).1.turnNumber = c5State.turnNumber + 1 ∧
       (∃ k, 1 ≤ k ∧ k ≤ c5State.players.length ∧
         (endTurn c5State).1.currentIdx = (c5State.currentIdx + k) % c5State.players.length ∧
         ((endTurn c5State).1.players.getD ((endTurn c5State).1.currentIdx) dPlayer).bankrupt = false ∧
         (∀ j, 1 ≤ j → j < k →
           ((endTurn c5State).1.players.getD ((c5State.currentIdx + j) % c5State.players.length) dPlayer).bankrupt = true)) ∧
       (endTurn c5State).1.phase =
         (if ((endTurn c5State).1.players.getD ((endTurn c5State).1.currentIdx) dPlayer).in_jail
          then GamePhase.inJail else GamePhase.waitingForRoll)) :=
  end_turn_spec c5State (by decide) (by decide)

/-! ### Claim C9: rent flows to owners, bankrupt or not -/

/-- Total cash over all players. -/
def totalMoney (s : GameState) : Int := (s.players.map Player.money).sum

theorem sum_map_money_set (l : List Player) (i : Nat) (a : Player) (h : i < l.length) :
    ((l.set i a).map Player.money).sum =
      (l.map Player.money).sum - (l.getD i dPlayer).money + a.money := by
  induction l generalizing i with
  | nil => simp at h
  | cons x xs ih =>
    cases i with
    | zero => simp [List.set]; ring
    | succ j =>
      have hj : j < xs.length := by simpa using h
      simp only [List.set, List.map_cons, List.sum_cons, List.getD_cons_succ]
      rw [ih j hj]
      ring

theorem sum_map_money_updByName (l : List Player) (nm : String) (r : Int) :
    (((l.map fun q => if q.name = nm then { q with money := q.money + r } else q).map Player.money).sum : Int) =
      (l.map Player.money).sum + r * (l.countP fun q => q.name = nm) := by
  induction l with
  | nil => simp
  | cons x xs ih =>
    by_cases hx : x.name = nm
    · simp only [List.map_cons, List.sum_cons, if_pos hx, List.countP_cons, ih]
      simp [hx]
      push_cast
      ring
    · simp only [List.map_cons, List.sum_cons, if_neg hx, List.countP_cons, ih]
      simp [hx]
      push_cast
      ring

theorem countP_name_eq_one (l : List Player) (nm : String)
    (hnd : (l.map Player.name).Nodup) (hm : ∃ q ∈ l, q.name = nm) :
    (l.countP fun q => q.name = nm) = 1 := by
  obtain ⟨q, hq, hqn⟩ := hm
  have hmem : nm ∈ l.map Player.name := by
    rw [List.mem_map]
    exact ⟨q, hq, hqn⟩
  have h1 := List.count_eq_one_of_mem hnd hmem
  rw [List.count, List.countP_map] at h1
  calc (l.countP fun q => q.name = nm)
      = l.countP ((fun b => b == nm) ∘ Player.name) := by
        apply List.countP_congr
        intro a _
        simp [Function.comp]
    _ = 1 := h1

theorem map_set_self_eq {β : Type _} (l : List Player) (i : Nat) (f' : Player → Player)
    (g : Player → β) (hg : ∀ q, g (f' q) = g q) :
    ((l.set i (f' (l.getD i dPlayer))).map g) = l.map g := by
  induction l generalizing i with
  | nil => rfl
  | cons x xs ih =>
    cases i with
    | zero => simp [List.set, hg]
    | succ j =>
      simp only [List.set, List.map_cons, List.getD_cons_succ]
      rw [ih j]

theorem updCur_map_eq {β : Type _} (s : GameState) (f' : Player → Player)
    (g : Player → β) (hg : ∀ q, g (f' q) = g q) :
    (updCur s f').players.map g = s.players.map g :=
  map_set_self_eq s.players s.currentIdx f' g hg

/-- `end_turn` never touches tile ownership, house counts, mortgage flags
or any player's holdings. -/
theorem endTurn_preserves (s : GameState) :
    (endTurn s).1.tileDyn = s.tileDyn ∧
    (endTurn s).1.players.map Player.properties = s.players.map Player.properties := by
  simp only [endTurn]
  split
  · exact ⟨rfl, rfl⟩
  · split
    next hm =>
      split
      next =>
        refine ⟨rfl, ?_⟩
        show ((updCur (updCur s fun q => { q with doubles_count := 0 })
          fun q => { q with bankrupt := true }).players.map Player.properties) = _
        rw [updCur_map_eq _ (fun q => { q with bankrupt := true }) Player.properties (fun q => rfl),
            updCur_map_eq _ (fun q => { q with doubles_count := 0 }) Player.properties (fun q => rfl)]
      next =>
        refine ⟨rfl, ?_⟩
        show ((updCur (updCur s fun q => { q with doubles_count := 0 })
          fun q => { q with bankrupt := true }).players.map Player.properties) = _
        rw [updCur_map_eq _ (fun q => { q with bankrupt := true }) Player.properties (fun q => rfl),
            updCur_map_eq _ (fun q => { q with doubles_count := 0 }) Player.properties (fun q => rfl)]
    next hm =>
      split
      next =>
        refine ⟨rfl, ?_⟩
        show ((updCur s fun q => { q with doubles_count := 0 }).players.map Player.properties) = _
        rw [updCur_map_eq _ (fun q => { q with doubles_count := 0 }) Player.properties (fun q => rfl)]
      next =>
        refine ⟨rfl, ?_⟩
        show ((updCur s fun q => { q with doubles_count := 0 }).players.map Player.properties) = _
        rw [updCur_map_eq _ (fun q => { q with doubles_count := 0 }) Player.properties (fun q => rfl)]

theorem countP_set_self (l : List Player) (i : Nat) (f' : Player → Player)
    (p : Player → Bool) (hp : ∀ q, p (f' q) = p q) :
    (l.set i (f' (l.getD i dPlayer))).countP p = l.countP p := by
  induction l generalizing i with
  | nil => rfl
  | cons x xs ih =>
    cases i with
    | zero => simp [List.set, List.countP_cons, hp]
    | succ j =>
      simp only [List.set, List.countP_cons, List.getD_cons_succ]
      rw [ih j]

theorem map_updByName_eq {β : Type _} (l : List Player) (nm : String) (f : Player → Player)
    (g : Player → β) (hg : ∀ q, g (f q) = g q) :
    ((l.map fun q => if q.name = nm then f q else q).map g) = l.map g := by
  rw [List.map_map]
  apply List.map_congr_left
  intro a _
  by_cases h : a.name = nm <;> simp [h, hg, Function.comp]

/-- C9: landing on an ownable tile owned by a different (possibly
bankrupt) player transfers the computed rent from the lander to the owner:
the lander loses exactly the rent, every player record named as owner
gains exactly the rent with bankruptcy flag and holdings untouched, total
cash over all players is conserved, and neither tile state nor any
player's holdings change; moreover `end_turn` (which marks bankruptcies)
never removes tile ownership or holdings, so bankrupt players keep
collecting rent. -/
theorem rent_paid_to_owner (fC fCC : Nat → List Card) (fuel : Nat) (s : GameState)
    (total : Nat) (o : String)
    (hi : s.currentIdx < s.players.length)
    (hnd : (s.players.map Player.name).Nodup)
    (htype : (board s.currentPlayer.position).tile_type = .property ∨
             (board s.currentPlayer.position).tile_type = .railroad ∨
             (board s.currentPlayer.position).tile_type = .utility)
    (ho : (s.tileDyn s.currentPlayer.position).owner = some o)
    (hne : o ≠ s.currentPlayer.name)
    (hmort : (s.tileDyn s.currentPlayer.position).is_mortgaged = false)
    (hoin : ∃ q ∈ s.players, q.name = o) :
    let rent : Int := calculateRent s s.currentPlayer.position total
    let s' := (handleLanding fC fCC (fuel + 1) s total).1
    s'.currentPlayer.money = s.currentPlayer.money - rent ∧
    (∀ j, j < s.players.length → (s.players.getD j dPlayer).name = o →
      (s'.players.getD j dPlayer).money = (s.players.getD j dPlayer).money + rent ∧
      (s'.players.getD j dPlayer).bankrupt = (s.players.getD j dPlayer).bankrupt ∧
      (s'.players.getD j dPlayer).properties = (s.players.getD j dPlayer).properties) ∧
    totalMoney s' = totalMoney s ∧
    s'.tileDyn = s.tileDyn ∧
    s'.players.map Player.properties = s.players.map Player.properties ∧
    s'.phase = .turnComplete ∧
    (∀ s₀ : GameState, (endTurn s₀).1.tileDyn = s₀.tileDyn ∧
      (endTurn s₀).1.players.map Player.properties = s₀.players.map Player.properties) := by
  intro rent s'
  have hgtj : (board s.currentPlayer.position).tile_type ≠ .goToJail := by
    rcases htype with h | h | h <;> rw [h] <;> intro hcon <;> cases hcon
  have htax : ¬ ((board s.currentPlayer.position).tile_type = .tax) := by
    rcases htype with h | h | h <;> rw [h] <;> intro hcon <;> cases hcon
  have hcards : ¬ ((board s.currentPlayer.position).tile_type = .chance ∨
      (board s.currentPlayer.position).tile_type = .communityChest) := by
    rcases htype with h | h | h <;> rw [h] <;> rintro (hcon | hcon) <;> cases hcon
  have hs' : s' = { logMsg (updByName (updCur s fun q => { q with money := q.money - rent }) o
      fun q => { q with money := q.money + rent }) "paid rent" with phase := .turnComplete } := by
    show (handleLanding fC fCC (fuel + 1) s total).1 = _
    simp only [handleLanding]
    rw [if_neg hgtj, if_neg htax, if_neg hcards, if_pos htype]
    simp only [ho]
    rw [if_pos hne]
  have h1 : (updCur s fun q => { q with money := q.money - rent }).currentPlayer =
      { s.currentPlayer with money := s.currentPlayer.money - rent } :=
    updCur_currentPlayer _ _ hi
  have hiu : (updCur s fun q => { q with money := q.money - rent }).currentIdx <
      (updCur s fun q => { q with money := q.money - rent }).players.length := by
    simpa using hi
  have hply : s'.players = ((s.players.set s.currentIdx
      (({ s.currentPlayer with money := s.currentPlayer.money - rent } : Player))).map
      fun q => if q.name = o then { q with money := q.money + rent } else q) := by
    rw [hs']
    rfl
  refine ⟨?_, ?_, ?_, ?_, ?_, ?_, endTurn_preserves⟩
  · rw [hs']
    show (updByName (updCur s fun q => { q with money := q.money - rent }) o
      fun q => { q with money := q.money + rent }).currentPlayer.money = _
    rw [updByName_currentPlayer _ _ _ hiu, h1]
    rw [if_neg (by simpa using fun hcon => hne (hcon.symm))]
  · intro j hj hjo
    have hji : j ≠ s.currentIdx := by
      intro hcon
      subst hcon
      exact hne hjo.symm
    have hjlen : j < (s.players.set s.currentIdx
        ({ s.currentPlayer with money := s.currentPlayer.money - rent } : Player)).length := by
      simpa using hj
    rw [hply, getD_map _ _ _ dPlayer dPlayer hjlen, getD_set_ne _ _ _ _ _ (fun hcon => hji hcon.symm)]
    rw [if_pos hjo]
    exact ⟨rfl, rfl, rfl⟩
  · show (s'.players.map Player.money).sum = (s.players.map Player.money).sum
    rw [hply, sum_map_money_updByName, sum_map_money_set _ _ _ hi]
    have hcnt : ((s.players.set s.currentIdx
        ({ s.currentPlayer with money := s.currentPlayer.money - rent } : Player)).countP
        fun q => q.name = o) = 1 := by
      have hset : (s.players.set s.currentIdx
          ({ s.currentPlayer with money := s.currentPlayer.money - rent } : Player)) =
          s.players.set s.currentIdx
            ((fun q => { q with money := q.money - rent }) (s.players.getD s.currentIdx dPlayer)) := rfl
      rw [hset, countP_set_self s.players s.currentIdx
        (fun q => { q with money := q.money - rent }) (fun q => q.name = o) (fun q => rfl)]
      exact countP_name_eq_one s.players o hnd hoin
    rw [hcnt]
    show (s.players.map Player.money).sum - s.currentPlayer.money +
        (s.currentPlayer.money - rent) + rent * (1 : Nat) = _
    push_cast
    ring
  · rw [hs']
    rfl
  · rw [hply]
    have hset : (s.players.set s.currentIdx
        ({ s.currentPlayer with money := s.currentPlayer.money - rent } : Player)) =
        s.players.set s.currentIdx
          ((fun q => { q with money := q.money - rent }) (s.players.getD s.currentIdx dPlayer)) := rfl
    rw [map_updByName_eq _ o (fun q => { q with money := q.money + rent })
        Player.properties (fun q => rfl), hset,
      map_set_self_eq s.players s.currentIdx
        (fun q => { q with money := q.money - rent }) Player.properties (fun q => rfl)]
  · rw [hs']

/-- Witness state for C9: A stands on Reading Railroad (position 5), which
the BANKRUPT player B owns. -/
def c9State : GameState :=
  { players := [{ Player.init "A" with position := 5 },
                { Player.init "B" with properties := [5], bankrupt := true }],
    currentIdx := 0, phase := .waitingForRoll,
    tileDyn := Function.update (fun _ => {}) 5 { owner := some "B" },
    lastDice := (2, 3), turnNumber := 0, messages := [],
    chanceDeck := chanceCards, communityDeck := communityCards }

/-- Witness for `rent_paid_to_owner`: the bankrupt owner B still collects
the railroad rent from A. -/
theorem rent_paid_to_owner_witness :
    let rent : Int := calculateRent c9State c9State.currentPlayer.position 5
    let s' := (handleLanding (fun _ => chanceCards) (fun _ => communityCards) (3 + 1) c9State 5).1
    s'.currentPlayer.money = c9State.currentPlayer.money - rent ∧
    (∀ j, j < c9State.players.length → (c9State.players.getD j dPlayer).name = "B" →
      (s'.players.getD j dPlayer).money = (c9State.players.getD j dPlayer).money + rent ∧
      (s'.players.getD j dPlayer).bankrupt = (c9State.players.getD j dPlayer).bankrupt ∧
      (s'.players.getD j dPlayer).properties = (c9State.players.getD j dPlayer).properties) ∧
    totalMoney s' = totalMoney c9State ∧
    s'.tileDyn = c9State.tileDyn ∧
    s'.players.map Player.properties = c9State.players.map Player.properties ∧
    s'.phase = .turnComplete ∧
    (∀ s₀ : GameState, (endTurn s₀).1.tileDyn = s₀.tileDyn ∧
      (endTurn s₀).1.players.map Player.properties = s₀.players.map Player.properties) :=
  rent_paid_to_owner (fun _ => chanceCards) (fun _ => communityCards) 3 c9State 5 "B"
    (by decide) (by decide) (by decide) (by decide) (by decide) (by decide)
    ⟨{ Player.init "B" with properties := [5], bankrupt := true }, by decide, rfl⟩

/-! ### Claim C10: the buy-decision phase invariant -/

/-- The tile under the current player is an ownable tile with no owner. -/
def unownedOwnable (s : GameState) : Prop :=
  ((board s.currentPlayer.position).tile_type = .property ∨
   (board s.currentPlayer.position).tile_type = .railroad ∨
   (board s.currentPlayer.position).tile_type = .utility) ∧
  (s.tileDyn s.currentPlayer.position).owner = none

/-- The invariant: whenever the phase is `WAITING_FOR_BUY_DECISION`, the
current tile is ownable and unowned. -/
def BuyInv (s : GameState) : Prop :=
  s.phase = .waitingForBuyDecision → unownedOwnable s

theorem sendToJail_phase (s : GameState) (r : String) :
    (sendToJail s r).phase = .turnComplete := rfl

theorem BuyInv_of_phase_ne (s : GameState)
    (h : s.phase ≠ .waitingForBuyDecision) : BuyInv s :=
  fun hcon => absurd hcon h

/-- Landing resolution preserves the buy-decision invariant at any fuel. -/
theorem handleLanding_BuyInv (fC fCC : Nat → List Card) :
    ∀ (fuel : Nat) (s : GameState) (total : Nat),
      BuyInv s → BuyInv (handleLanding fC fCC fuel s total).1
  | 0, s, total, hs => hs
  | Nat.succ fuel, s, total, hs => by
    simp only [handleLanding]
    split
    · exact BuyInv_of_phase_ne _ (by rw [sendToJail_phase]; intro hcon; cases hcon)
    · split
      · exact BuyInv_of_phase_ne _ (by intro hcon; cases hcon)
      · split
        · -- Chance / Community Chest: draw a card
          split
          · exact hs
          next card rest heq =>
            split
            · exact BuyInv_of_phase_ne _ (by intro hcon; cases hcon)
            · exact handleLanding_BuyInv fC fCC fuel _ _
                (BuyInv_of_phase_ne _ (by intro hcon; cases hcon))
            · exact handleLanding_BuyInv fC fCC fuel _ _
                (BuyInv_of_phase_ne _ (by intro hcon; cases hcon))
            · exact BuyInv_of_phase_ne _ (by intro hcon; cases hcon)
            · exact BuyInv_of_phase_ne _ (by rw [sendToJail_phase]; intro hcon; cases hcon)
        · split
          next htype =>
            split
            next hown =>
              intro _
              exact ⟨htype, hown⟩
            next o hown =>
              split
              · exact BuyInv_of_phase_ne _ (by intro hcon; cases hcon)
              · exact BuyInv_of_phase_ne _ (by intro hcon; cases hcon)
          next hnt =>
            exact BuyInv_of_phase_ne _ (by intro hcon; cases hcon)

theorem owner_update_preserves (f : Fin 40 → TileDyn) (p q : Fin 40) (d : TileDyn)
    (hd : d.owner = (f p).owner) : ((Function.update f p d) q).owner = (f q).owner := by
  by_cases h : q = p
  · subst h
    rw [Function.update_same, hd]
  · rw [Function.update_noteq h]

@[simp] theorem moveStep_phase (s : GameState) (total : Nat) :
    (moveStep s total).phase = s.phase := by
  simp only [moveStep]
  split <;> rfl

theorem updCur_position_preserved (s : GameState) (f : Player → Player)
    (hf : ∀ q, (f q).position = q.position) :
    (updCur s f).currentPlayer.position = s.currentPlayer.position := by
  by_cases h : s.currentIdx < s.players.length
  · rw [updCur_currentPlayer _ _ h, hf]
  · have hle : s.players.length ≤ s.currentIdx := Nat.le_of_not_lt h
    show ((s.players.set s.currentIdx (f s.currentPlayer)).getD s.currentIdx dPlayer).position =
      (s.players.getD s.currentIdx dPlayer).position
    rw [List.getD_eq_default _ _ (by simpa using hle), List.getD_eq_default _ _ hle]

theorem rollAndMove_BuyInv (fC fCC : Nat → List Card) (fuel : Nat) (s : GameState)
    (d1 d2 : Nat) (hs : BuyInv s) : BuyInv (rollAndMove fC fCC fuel s d1 d2).1 := by
  simp only [rollAndMove]
  split
  · exact hs
  · split
    · exact hs
    next hph2 =>
      have hwr : s.phase = .waitingForRoll := not_ne_iff.mp hph2
      have hpre : ∀ sB : GameState, sB.phase = s.phase →
          BuyInv (logMsg (moveStep sB (d1 + d2)) "landed on a tile") := by
        intro sB hB
        apply BuyInv_of_phase_ne
        rw [logMsg_phase, moveStep_phase, hB, hwr]
        intro hcon
        cases hcon
      split
      · split
        · exact BuyInv_of_phase_ne _ (by rw [sendToJail_phase]; intro hcon; cases hcon)
        · split
          · exact BuyInv_of_phase_ne _ (by intro hcon; cases hcon)
          · exact handleLanding_BuyInv fC fCC fuel _ _ (hpre _ (by simp))
      · split
        · exact BuyInv_of_phase_ne _ (by intro hcon; cases hcon)
        · exact handleLanding_BuyInv fC fCC fuel _ _ (hpre _ (by simp))

theorem buyCurrentProperty_BuyInv (s : GameState) (hs : BuyInv s) :
    BuyInv (buyCurrentProperty s).1 := by
  simp only [buyCurrentProperty]
  split
  · exact hs
  · split
    · exact hs
    · exact BuyInv_of_phase_ne _ (by intro hcon; cases hcon)

theorem declinePurchase_BuyInv (s : GameState) (hs : BuyInv s) :
    BuyInv (declinePurchase s).1 := by
  simp only [declinePurchase]
  split
  · exact hs
  · exact BuyInv_of_phase_ne _ (by intro hcon; cases hcon)

theorem payBail_BuyInv (s : GameState) (hs : BuyInv s) : BuyInv (payBail s).1 := by
  simp only [payBail]
  split
  · exact hs
  · split
    · exact hs
    · exact BuyInv_of_phase_ne _ (by intro hcon; cases hcon)

theorem useJailCard_BuyInv (s : GameState) (hs : BuyInv s) : BuyInv (useJailCard s).1 := by
  simp only [useJailCard]
  split
  · exact hs
  · split
    · exact hs
    · exact BuyInv_of_phase_ne _ (by intro hcon; cases hcon)

theorem rollForDoubles_BuyInv (s : GameState) (d1 d2 : Nat) (hs : BuyInv s) :
    BuyInv (rollForDoubles s d1 d2).1 := by
  simp only [rollForDoubles]
  split
  · exact hs
  · split
    · exact BuyInv_of_phase_ne _ (by intro hcon; cases hcon)
    · split
      · exact BuyInv_of_phase_ne _ (by intro hcon; cases hcon)
      · exact BuyInv_of_phase_ne _ (by intro hcon; cases hcon)

theorem tileDyn_update_BuyInv (s : GameState) (hs : BuyInv s)
    (s' : GameState)
    (hph : s'.phase = s.phase)
    (hpos : s'.currentPlayer.position = s.currentPlayer.position)
    (hown : ∀ q, (s'.tileDyn q).owner = (s.tileDyn q).owner) : BuyInv s' := by
  intro hbuy
  obtain ⟨htype, ho⟩ := hs (by rw [← hph]; exact hbuy)
  exact ⟨by rw [hpos]; exact htype, by rw [hpos, hown]; exact ho⟩

theorem buildHouse_BuyInv (s : GameState) (pos : Fin 40) (hs : BuyInv s) :
    BuyInv (buildHouse s pos).1 := by
  simp only [buildHouse]
  split
  · exact hs
  · split
    · exact hs
    · refine tileDyn_update_BuyInv s hs _ rfl ?_ ?_
      · show (updCur s fun q => { q with money := q.money - ((board pos).house_cost : Int) }).currentPlayer.position = s.currentPlayer.position
        exact updCur_position_preserved s _ (fun q => rfl)
      · intro q
        show ((Function.update s.tileDyn pos
          ({ s.tileDyn pos with houses := (s.tileDyn pos).houses + 1 })) q).owner = (s.tileDyn q).owner
        exact owner_update_preserves _ _ _ _ rfl

theorem mortgageProperty_BuyInv (s : GameState) (pos : Fin 40) (hs : BuyInv s) :
    BuyInv (mortgageProperty s pos).1 := by
  simp only [mortgageProperty]
  split
  · exact hs
  · split
    · exact hs
    · split
      · exact hs
      · refine tileDyn_update_BuyInv s hs _ rfl ?_ ?_
        · have hgoal : ∀ g : Fin 40 → TileDyn,
              (updCur { s with tileDyn := g } fun q => { q with money := q.money + ((board pos).mortgage_value : Int) }).currentPlayer.position = s.currentPlayer.position := by
            intro g
            rw [updCur_position_preserved _
              (fun q => { q with money := q.money + ((board pos).mortgage_value : Int) }) (fun q => rfl)]
            rfl
          exact hgoal _
        · intro q
          show ((Function.update s.tileDyn pos
            ({ s.tileDyn pos with is_mortgaged := true })) q).owner = (s.tileDyn q).owner
          exact owner_update_preserves _ _ _ _ rfl

theorem unmortgageProperty_BuyInv (s : GameState) (pos : Fin 40) (hs : BuyInv s) :
    BuyInv (unmortgageProperty s pos).1 := by
  simp only [unmortgageProperty]
  split
  · exact hs
  · split
    · exact hs
    · split
      · exact hs
      · refine tileDyn_update_BuyInv s hs _ rfl ?_ ?_
        · show (updCur s fun q => { q with money := q.money - (pyInt11 (board pos).mortgage_value : Int) }).currentPlayer.position = s.currentPlayer.position
          exact updCur_position_preserved s _ (fun q => rfl)
        · intro q
          show ((Function.update s.tileDyn pos
            ({ s.tileDyn pos with is_mortgaged := false })) q).owner = (s.tileDyn q).owner
          exact owner_update_preserves _ _ _ _ rfl

theorem endTurn_BuyInv (s : GameState) (hs : BuyInv s) : BuyInv (endTurn s).1 := by
  simp only [endTurn]
  split
  · exact hs
  · split <;> split
    · exact BuyInv_of_phase_ne _ (by intro hcon; cases hcon)
    · apply BuyInv_of_phase_ne
      intro hcon
      rcases ite_eq_iff.mp hcon with ⟨_, h⟩ | ⟨_, h⟩ <;> cases h
    · exact BuyInv_of_phase_ne _ (by intro hcon; cases hcon)
    · apply BuyInv_of_phase_ne
      intro hcon
      rcases ite_eq_iff.mp hcon with ⟨_, h⟩ | ⟨_, h⟩ <;> cases h

theorem getPropertyInfo_BuyInv (s : GameState) (pos : Nat) (hs : BuyInv s) :
    BuyInv (getPropertyInfo s pos).1 := by
  simp only [getPropertyInfo]
  split <;> exact hs

/-- One engine operation, with all its explicit inputs (dice values, fuel,
reshuffle oracles, positions) chosen arbitrarily. -/
inductive Step : GameState → GameState → Prop where
  | roll (fC fCC : Nat → List Card) (fuel d1 d2 : Nat) (s : GameState) :
      Step s (rollAndMove fC fCC fuel s d1 d2).1
  | buy (s : GameState) : Step s (buyCurrentProperty s).1
  | decline (s : GameState) : Step s (declinePurchase s).1
  | bail (s : GameState) : Step s (payBail s).1
  | jailCard (s : GameState) : Step s (useJailCard s).1
  | rollDoubles (s : GameState) (d1 d2 : Nat) : Step s (rollForDoubles s d1 d2).1
  | build (s : GameState) (pos : Fin 40) : Step s (buildHouse s pos).1
  | mortgage (s : GameState) (pos : Fin 40) : Step s (mortgageProperty s pos).1
  | unmortgage (s : GameState) (pos : Fin 40) : Step s (unmortgageProperty s pos).1
  | endOfTurn (s : GameState) : Step s (endTurn s).1
  | info (s : GameState) (pos : Nat) : Step s (getPropertyInfo s pos).1

/-- A state is reachable when some initial game and some sequence of
operations produce it. -/
def Reachable (s : GameState) : Prop :=
  ∃ (names : List String) (cd ccd : List Card),
    Relation.ReflTransGen Step (initState names cd ccd) s

/-- C10: in every reachable state, phase `WAITING_FOR_BUY_DECISION`
implies that the tile at the current player's position is of type
PROPERTY, RAILROAD or UTILITY and has no owner; and the invariant is
preserved by every single operation from any state whatsoever. -/
theorem buy_decision_invariant :
    (∀ s : GameState, Reachable s → BuyInv s) ∧
    (∀ s s' : GameState, Step s s' → BuyInv s → BuyInv s') := by
  have hstep : ∀ s s' : GameState, Step s s' → BuyInv s → BuyInv s' := by
    intro s s' hstep hs
    cases hstep with
    | roll fC fCC fuel d1 d2 s => exact rollAndMove_BuyInv fC fCC fuel s d1 d2 hs
    | buy s => exact buyCurrentProperty_BuyInv s hs
    | decline s => exact declinePurchase_BuyInv s hs
    | bail s => exact payBail_BuyInv s hs
    | jailCard s => exact useJailCard_BuyInv s hs
    | rollDoubles s d1 d2 => exact rollForDoubles_BuyInv s d1 d2 hs
    | build s pos => exact buildHouse_BuyInv s pos hs
    | mortgage s pos => exact mortgageProperty_BuyInv s pos hs
    | unmortgage s pos => exact unmortgageProperty_BuyInv s pos hs
    | endOfTurn s => exact endTurn_BuyInv s hs
    | info s pos => exact getPropertyInfo_BuyInv s pos hs
  refine ⟨?_, hstep⟩
  rintro s ⟨names, cd, ccd, hpath⟩
  induction hpath with
  | refl => exact BuyInv_of_phase_ne _ (by intro hcon; cases hcon)
  | tail hprev hstep1 ih => exact hstep _ _ hstep1 ih

/-- Witness for `buy_decision_invariant`: one roll from a fresh two-player
game reaches the buy-decision phase on Baltic Avenue, and the invariant
instance at that state is non-vacuous. -/
theorem buy_decision_invariant_witness :
    BuyInv ((rollAndMove (fun _ => chanceCards) (fun _ => communityCards) 4
        (initState ["A", "B"] chanceCards communityCards) 1 2).1) ∧
    ((rollAndMove (fun _ => chanceCards) (fun _ => communityCards) 4
        (initState ["A", "B"] chanceCards communityCards) 1 2).1.phase =
      .waitingForBuyDecision) :=
  ⟨buy_decision_invariant.1 _ ⟨["A", "B"], chanceCards, communityCards,
    Relation.ReflTransGen.single (Step.roll (fun _ => chanceCards) (fun _ => communityCards) 4 1 2 _)⟩,
   by decide⟩

/-! ### Claim C6: error results never mutate, and no uncaught faults -/

/-- Landing resolution never produces an error result. -/
theorem handleLanding_error_none (fC fCC : Nat → List Card) :
    ∀ (fuel : Nat) (s : GameState) (total : Nat),
      (handleLanding fC fCC fuel s total).2.error = none
  | 0, s, total => rfl
  | Nat.succ fuel, s, total => by
    simp only [handleLanding]
    split
    · rfl
    · split
      · rfl
      · split
        · split
          · rfl
          · split
            · rfl
            · exact handleLanding_error_none fC fCC fuel _ _
            · exact handleLanding_error_none fC fCC fuel _ _
            · rfl
            · rfl
        · split
          · split
            · rfl
            · split <;> rfl
          · rfl

theorem rollAndMove_atomic (fC fCC : Nat → List Card) (fuel : Nat) (s : GameState)
    (d1 d2 : Nat) :
    (rollAndMove fC fCC fuel s d1 d2).2.error.isSome = true →
      (rollAndMove fC fCC fuel s d1 d2).1 = s := by
  simp only [rollAndMove]
  split
  · intro _; rfl
  · split
    · intro _; rfl
    · split
      · split
        · intro hcon
          exfalso
          simp at hcon
        · split
          · intro hcon
            exfalso
            dsimp only at hcon
            simp only [handleLanding_error_none] at hcon
            simp at hcon
          · intro hcon
            exfalso
            dsimp only at hcon
            simp only [handleLanding_error_none] at hcon
            simp at hcon
      · split
        · intro hcon
          exfalso
          dsimp only at hcon
          simp only [handleLanding_error_none] at hcon
          simp at hcon
        · intro hcon
          exfalso
          dsimp only at hcon
          simp only [handleLanding_error_none] at hcon
          simp at hcon

theorem buyCurrentProperty_atomic (s : GameState) :
    (buyCurrentProperty s).2.error.isSome = true → (buyCurrentProperty s).1 = s := by
  simp only [buyCurrentProperty]
  split
  · intro _; rfl
  · split
    · intro _; rfl
    · intro hcon
      exfalso
      simp at hcon

theorem declinePurchase_atomic (s : GameState) :
    (declinePurchase s).2.error.isSome = true → (declinePurchase s).1 = s := by
  simp only [declinePurchase]
  split
  · intro _; rfl
  · intro hcon
    exfalso
    simp at hcon

theorem payBail_atomic (s : GameState) :
    (payBail s).2.error.isSome = true → (payBail s).1 = s := by
  simp only [payBail]
  split
  · intro _; rfl
  · split
    · intro _; rfl
    · intro hcon
      exfalso
      simp at hcon

theorem useJailCard_atomic (s : GameState) :
    (useJailCard s).2.error.isSome = true → (useJailCard s).1 = s := by
  simp only [useJailCard]
  split
  · intro _; rfl
  · split
    · intro _; rfl
    · intro hcon
      exfalso
      simp at hcon

theorem rollForDoubles_atomic (s : GameState) (d1 d2 : Nat) :
    (rollForDoubles s d1 d2).2.error.isSome = true → (rollForDoubles s d1 d2).1 = s := by
  simp only [rollForDoubles]
  split
  · intro _; rfl
  · split
    · intro hcon
      exfalso
      simp at hcon
    · split
      · intro hcon
        exfalso
        simp at hcon
      · intro hcon
        exfalso
        simp at hcon

theorem buildHouse_atomic (s : GameState) (pos : Fin 40) :
    (buildHouse s pos).2.error.isSome = true → (buildHouse s pos).1 = s := by
  simp only [buildHouse]
  split
  · intro _; rfl
  · split
    · intro _; rfl
    · intro hcon
      exfalso
      simp at hcon

theorem mortgageProperty_atomic (s : GameState) (pos : Fin 40) :
    (mortgageProperty s pos).2.error.isSome = true → (mortgageProperty s pos).1 = s := by
  simp only [mortgageProperty]
  split
  · intro _; rfl
  · split
    · intro _; rfl
    · split
      · intro _; rfl
      · intro hcon
        exfalso
        simp at hcon

theorem unmortgageProperty_atomic (s : GameState) (pos : Fin 40) :
    (unmortgageProperty s pos).2.error.isSome = true → (unmortgageProperty s pos).1 = s := by
  simp only [unmortgageProperty]
  split
  · intro _; rfl
  · split
    · intro _; rfl
    · split
      · intro _; rfl
      · intro hcon
        exfalso
        simp at hcon

theorem endTurn_atomic (s : GameState) :
    (endTurn s).2.error.isSome = true → (endTurn s).1 = s := by
  simp only [endTurn]
  split
  · intro _; rfl
  · split <;> split
    · intro hcon
      exfalso
      simp at hcon
    · intro hcon
      exfalso
      simp at hcon
    · intro hcon
      exfalso
      simp at hcon
    · intro hcon
      exfalso
      simp at hcon

theorem getPropertyInfo_atomic (s : GameState) (pos : Nat) :
    (getPropertyInfo s pos).2.error.isSome = true → (getPropertyInfo s pos).1 = s := by
  simp only [getPropertyInfo]
  split <;> (intro _; rfl)

/-- A result carries no uncaught fault and no unbounded recursion. -/
def noFaultOut (r : ActionResult) : Prop := r.fault = false ∧ r.fuelOut = false

/-- Chance tiles sit at positions 7, 22 and 36. -/
theorem chance_positions : ∀ pos : Fin 40,
    (board pos).tile_type = .chance → pos = 7 ∨ pos = 22 ∨ pos = 36 := by
  decide

/-- Community Chest tiles sit at positions 2, 17 and 33. -/
theorem cc_positions : ∀ pos : Fin 40,
    (board pos).tile_type = .communityChest → pos = 2 ∨ pos = 17 ∨ pos = 33 := by
  decide

/-- Landing on a tile that is not Chance / Community Chest resolves
without fault at any positive fuel. -/
theorem handleLanding_noFault_plain (fC fCC : Nat → List Card) (fuel : Nat)
    (s : GameState) (total : Nat)
    (h1 : (board s.currentPlayer.position).tile_type ≠ .chance)
    (h2 : (board s.currentPlayer.position).tile_type ≠ .communityChest) :
    noFaultOut (handleLanding fC fCC (fuel + 1) s total).2 := by
  simp only [handleLanding]
  split
  · exact ⟨rfl, rfl⟩
  · split
    · exact ⟨rfl, rfl⟩
    · split
      next hcard => exact absurd hcard (by tauto)
      · split
        · split
          · exact ⟨rfl, rfl⟩
          · split <;> exact ⟨rfl, rfl⟩
        · exact ⟨rfl, rfl⟩

theorem card_move_position (s2 : GameState) (dest : Fin 40) (old : Fin 40)
    (hi : s2.currentIdx < s2.players.length) :
    ((if dest.val < old.val
      then updCur (updCur s2 fun q => { q with position := dest })
        fun q => { q with money := q.money + 200 }
      else updCur s2 fun q => { q with position := dest })).currentPlayer.position = dest := by
  split
  · rw [updCur_position_preserved _ (fun q => { q with money := q.money + 200 }) (fun q => rfl),
      updCur_currentPlayer _ _ hi]
  · rw [updCur_currentPlayer _ _ hi]

/-- Landing on a Community Chest tile resolves without fault: every card
of its deck definition either ends the resolution directly or moves the
player to GO (position 0, a plain tile). -/
theorem handleLanding_noFault_cc (fC fCC : Nat → List Card)
    (hOCC : ∀ k, fCC k ≠ [] ∧ ∀ c ∈ fCC k, c ∈ communityCards)
    (f : Nat) (s : GameState) (total : Nat)
    (hi : s.currentIdx < s.players.length)
    (hdCC : ∀ c ∈ s.communityDeck, c ∈ communityCards)
    (hcc : (board s.currentPlayer.position).tile_type = .communityChest) :
    noFaultOut (handleLanding fC fCC (f + 2) s total).2 := by
  have hngtj : (board s.currentPlayer.position).tile_type ≠ .goToJail := by
    rw [hcc]; intro h; cases h
  have hntax : ¬((board s.currentPlayer.position).tile_type = .tax) := by
    rw [hcc]; intro h; cases h
  have hnch : ¬((board s.currentPlayer.position).tile_type = .chance) := by
    rw [hcc]; intro h; cases h
  obtain ⟨g, hg⟩ : ∃ g, g = f + 1 := ⟨f + 1, rfl⟩
  have hmove : ∀ (s1 : GameState), s1.currentIdx = s.currentIdx →
      s1.players.length = s.players.length → ∀ (old : Fin 40) (total2 : Nat),
      noFaultOut (handleLanding fC fCC g
        { (if (0 : Fin 40).val < old.val
            then updCur (updCur (logMsg s1 "drew a card") fun q => { q with position := 0 })
              fun q => { q with money := q.money + 200 }
            else updCur (logMsg s1 "drew a card") fun q => { q with position := 0 })
          with phase := GamePhase.turnComplete } total2).2 := by
    subst hg
    intro s1 hidx hlen old total2
    have hi1 : (logMsg s1 "drew a card").currentIdx < (logMsg s1 "drew a card").players.length := by
      rw [logMsg_currentIdx, logMsg_players, hidx, hlen]
      exact hi
    have hp : ({ (if (0 : Fin 40).val < old.val
        then updCur (updCur (logMsg s1 "drew a card") fun q => { q with position := 0 })
          fun q => { q with money := q.money + 200 }
        else updCur (logMsg s1 "drew a card") fun q => { q with position := 0 })
      with phase := GamePhase.turnComplete } : GameState).currentPlayer.position = 0 :=
      card_move_position (logMsg s1 "drew a card") 0 old hi1
    apply handleLanding_noFault_plain
    · rw [hp]
      decide
    · rw [hp]
      decide
  rw [show f + 2 = g + 1 from by rw [hg]]
  simp only [handleLanding]
  rw [if_neg hngtj, if_neg hntax, if_pos (Or.inr hcc), if_neg hnch]
  by_cases hpe : s.communityDeck.isEmpty
  · rw [if_pos hpe, if_neg hnch]
    cases hdk : fCC g with
    | nil => exact absurd hdk (hOCC g).1
    | cons card rest =>
      have hcm : card ∈ communityCards :=
        (hOCC g).2 card (by rw [hdk]; exact List.mem_cons_self _ _)
      dsimp only
      rw [if_pos hpe]
      cases card with
      | money amt text => exact ⟨rfl, rfl⟩
      | jailCard text => exact ⟨rfl, rfl⟩
      | goToJail text => exact ⟨rfl, rfl⟩
      | moveBack spaces text =>
        exfalso
        simp [communityCards] at hcm
      | move dest text =>
        obtain ⟨rfl, -⟩ : dest = 0 ∧ text = "Advance to GO" := by
          simpa [communityCards] using hcm
        exact hmove s rfl rfl _ _
  · rw [if_neg hpe]
    cases hdk : s.communityDeck with
    | nil =>
      rw [hdk] at hpe
      exact absurd rfl hpe
    | cons card rest =>
      have hcm : card ∈ communityCards := hdCC card (by rw [hdk]; exact List.mem_cons_self _ _)
      dsimp only
      rw [if_neg (by simp : ¬((card :: rest : List Card).isEmpty = true)), if_neg hnch]
      cases card with
      | money amt text => exact ⟨rfl, rfl⟩
      | jailCard text => exact ⟨rfl, rfl⟩
      | goToJail text => exact ⟨rfl, rfl⟩
      | moveBack spaces text =>
        exfalso
        simp [communityCards] at hcm
      | move dest text =>
        obtain ⟨rfl, -⟩ : dest = 0 ∧ text = "Advance to GO" := by
          simpa [communityCards] using hcm
        exact hmove { s with communityDeck := rest } rfl rfl _ _

/-- Landing on a Chance tile resolves without fault: every card of its
deck definition ends the resolution directly, moves the player to a plain
tile (GO, Illinois, Boardwalk, Reading Railroad), or moves back three
spaces — which from the chance positions 7, 22, 36 reaches the plain
tiles 4 and 19 or the Community Chest tile 33, whose own cards all
resolve. -/
theorem handleLanding_noFault_chance (fC fCC : Nat → List Card)
    (hOCC : ∀ k, fCC k ≠ [] ∧ ∀ c ∈ fCC k, c ∈ communityCards)
    (hOC : ∀ k, fC k ≠ [] ∧ ∀ c ∈ fC k, c ∈ chanceCards)
    (f : Nat) (s : GameState) (total : Nat)
    (hi : s.currentIdx < s.players.length)
    (hdC : ∀ c ∈ s.chanceDeck, c ∈ chanceCards)
    (hdCC : ∀ c ∈ s.communityDeck, c ∈ communityCards)
    (hch : (board s.currentPlayer.position).tile_type = .chance) :
    noFaultOut (handleLanding fC fCC (f + 3) s total).2 := by
  have hngtj : (board s.currentPlayer.position).tile_type ≠ .goToJail := by
    rw [hch]; intro h; cases h
  have hntax : ¬((board s.currentPlayer.position).tile_type = .tax) := by
    rw [hch]; intro h; cases h
  have hisch : (board s.currentPlayer.position).tile_type = .chance := hch
  obtain ⟨g, hg⟩ : ∃ g, g = f + 2 := ⟨f + 2, rfl⟩
  have hmoveD : ∀ dest : Fin 40, (board dest).tile_type ≠ .chance →
      (board dest).tile_type ≠ .communityChest →
      ∀ (s1 : GameState), s1.currentIdx = s.currentIdx →
      s1.players.length = s.players.length → ∀ (old : Fin 40) (total2 : Nat),
      noFaultOut (handleLanding fC fCC g
        { (if dest.val < old.val
            then updCur (updCur (logMsg s1 "drew a card") fun q => { q with position := dest })
              fun q => { q with money := q.money + 200 }
            else updCur (logMsg s1 "drew a card") fun q => { q with position := dest })
          with phase := GamePhase.turnComplete } total2).2 := by
    subst hg
    intro dest hd1 hd2 s1 hidx hlen old total2
    have hi1 : (logMsg s1 "drew a card").currentIdx < (logMsg s1 "drew a card").players.length := by
      rw [logMsg_currentIdx, logMsg_players, hidx, hlen]
      exact hi
    have hp : ({ (if dest.val < old.val
        then updCur (updCur (logMsg s1 "drew a card") fun q => { q with position := dest })
          fun q => { q with money := q.money + 200 }
        else updCur (logMsg s1 "drew a card") fun q => { q with position := dest })
      with phase := GamePhase.turnComplete } : GameState).currentPlayer.position = dest :=
      card_move_position (logMsg s1 "drew a card") dest old hi1
    apply handleLanding_noFault_plain fC fCC (f + 1)
    · rw [hp]
      exact hd1
    · rw [hp]
      exact hd2
  have hback : ∀ (s1 : GameState), s1.currentIdx = s.currentIdx →
      s1.players.length = s.players.length → s1.communityDeck = s.communityDeck →
      s1.currentPlayer = s.currentPlayer → ∀ total2 : Nat,
      noFaultOut (handleLanding fC fCC g
        { (updCur (logMsg s1 "drew a card") fun q => { q with position := subPos q.position 3 })
          with phase := GamePhase.turnComplete } total2).2 := by
    subst hg
    intro s1 hidx hlen hcd hcur total2
    have hi1 : (logMsg s1 "drew a card").currentIdx < (logMsg s1 "drew a card").players.length := by
      rw [logMsg_currentIdx, logMsg_players, hidx, hlen]
      exact hi
    have h2 := updCur_currentPlayer (logMsg s1 "drew a card")
      (fun q => { q with position := subPos q.position 3 }) hi1
    rw [logMsg_currentPlayer, hcur] at h2
    have hp : ({ (updCur (logMsg s1 "drew a card") fun q => { q with position := subPos q.position 3 })
        with phase := GamePhase.turnComplete } : GameState).currentPlayer.position =
        subPos s.currentPlayer.position 3 :=
      congrArg Player.position h2
    rcases chance_positions _ hch with hpos | hpos | hpos
    · apply handleLanding_noFault_plain fC fCC (f + 1)
      · rw [hp, hpos]
        decide
      · rw [hp, hpos]
        decide
    · apply handleLanding_noFault_plain fC fCC (f + 1)
      · rw [hp, hpos]
        decide
      · rw [hp, hpos]
        decide
    · apply handleLanding_noFault_cc fC fCC hOCC f
      · show ({ (updCur (logMsg s1 "drew a card") fun q => { q with position := subPos q.position 3 })
          with phase := GamePhase.turnComplete } : GameState).currentIdx < _
        simpa [hidx, hlen] using hi
      · show ∀ c ∈ s1.communityDeck, c ∈ communityCards
        rw [hcd]
        exact hdCC
      · rw [hp, hpos]
        decide
  rw [show f + 3 = g + 1 from by rw [hg]]
  simp only [handleLanding]
  rw [if_neg hngtj, if_neg hntax, if_pos (Or.inl hch), if_pos hisch]
  by_cases hpe : s.chanceDeck.isEmpty
  · rw [if_pos hpe, if_pos hisch]
    cases hdk : fC g with
    | nil => exact absurd hdk (hOC g).1
    | cons card rest =>
      have hcm : card ∈ chanceCards :=
        (hOC g).2 card (by rw [hdk]; exact List.mem_cons_self _ _)
      dsimp only
      rw [if_pos hpe]
      cases card with
      | money amt text => exact ⟨rfl, rfl⟩
      | jailCard text => exact ⟨rfl, rfl⟩
      | goToJail text => exact ⟨rfl, rfl⟩
      | moveBack spaces text =>
        obtain ⟨rfl, -⟩ : spaces = 3 ∧ text = "Go back 3 spaces" := by
          simpa [chanceCards] using hcm
        exact hback s rfl rfl rfl rfl _
      | move dest text =>
        rcases (show (dest = 0 ∧ text = "Advance to GO") ∨
            (dest = 24 ∧ text = "Advance to Illinois Avenue") ∨
            (dest = 39 ∧ text = "Advance to Boardwalk") ∨
            (dest = 5 ∧ text = "Advance to Reading Railroad") from by
              simpa [chanceCards] using hcm) with
          ⟨rfl, -⟩ | ⟨rfl, -⟩ | ⟨rfl, -⟩ | ⟨rfl, -⟩
        · exact hmoveD 0 (by decide) (by decide) s rfl rfl _ _
        · exact hmoveD 24 (by decide) (by decide) s rfl rfl _ _
        · exact hmoveD 39 (by decide) (by decide) s rfl rfl _ _
        · exact hmoveD 5 (by decide) (by decide) s rfl rfl _ _
  · rw [if_neg hpe]
    cases hdk : s.chanceDeck with
    | nil =>
      rw [hdk] at hpe
      exact absurd rfl hpe
    | cons card rest =>
      have hcm : card ∈ chanceCards := hdC card (by rw [hdk]; exact List.mem_cons_self _ _)
      dsimp only
      rw [if_neg (by simp : ¬((card :: rest : List Card).isEmpty = true)), if_pos hisch]
      cases card with
      | money amt text => exact ⟨rfl, rfl⟩
      | jailCard text => exact ⟨rfl, rfl⟩
      | goToJail text => exact ⟨rfl, rfl⟩
      | moveBack spaces text =>
        obtain ⟨rfl, -⟩ : spaces = 3 ∧ text = "Go back 3 spaces" := by
          simpa [chanceCards] using hcm
        exact hback { s with chanceDeck := rest } rfl rfl rfl rfl _
      | move dest text =>
        rcases (show (dest = 0 ∧ text = "Advance to GO") ∨
            (dest = 24 ∧ text = "Advance to Illinois Avenue") ∨
            (dest = 39 ∧ text = "Advance to Boardwalk") ∨
            (dest = 5 ∧ text = "Advance to Reading Railroad") from by
              simpa [chanceCards] using hcm) with
          ⟨rfl, -⟩ | ⟨rfl, -⟩ | ⟨rfl, -⟩ | ⟨rfl, -⟩
        · exact hmoveD 0 (by decide) (by decide) { s with chanceDeck := rest } rfl rfl _ _
        · exact hmoveD 24 (by decide) (by decide) { s with chanceDeck := rest } rfl rfl _ _
        · exact hmoveD 39 (by decide) (by decide) { s with chanceDeck := rest } rfl rfl _ _
        · exact hmoveD 5 (by decide) (by decide) { s with chanceDeck := rest } rfl rfl _ _

/-- Landing resolution never faults at fuel at least 3, whatever the tile,
provided the current-player index is in range, the persistent decks hold
only cards from their deck definitions and the reshuffle oracles always
yield a nonempty list of such cards. -/
theorem handleLanding_noFault (fC fCC : Nat → List Card)
    (hOCC : ∀ k, fCC k ≠ [] ∧ ∀ c ∈ fCC k, c ∈ communityCards)
    (hOC : ∀ k, fC k ≠ [] ∧ ∀ c ∈ fC k, c ∈ chanceCards)
    (f : Nat) (s : GameState) (total : Nat)
    (hi : s.currentIdx < s.players.length)
    (hdC : ∀ c ∈ s.chanceDeck, c ∈ chanceCards)
    (hdCC : ∀ c ∈ s.communityDeck, c ∈ communityCards) :
    noFaultOut (handleLanding fC fCC (f + 3) s total).2 := by
  by_cases hch : (board s.currentPlayer.position).tile_type = .chance
  · exact handleLanding_noFault_chance fC fCC hOCC hOC f s total hi hdC hdCC hch
  · by_cases hcc : (board s.currentPlayer.position).tile_type = .communityChest
    · exact handleLanding_noFault_cc fC fCC hOCC (f + 1) s total hi hdCC hcc
    · exact handleLanding_noFault_plain fC fCC (f + 2) s total hch hcc

set_option maxHeartbeats 3200000 in
/-- The whole `roll_and_move` operation never faults at fuel at least 3
under the same side conditions. -/
theorem rollAndMove_noFault (fC fCC : Nat → List Card)
    (hOCC : ∀ k, fCC k ≠ [] ∧ ∀ c ∈ fCC k, c ∈ communityCards)
    (hOC : ∀ k, fC k ≠ [] ∧ ∀ c ∈ fC k, c ∈ chanceCards)
    (f : Nat) (s : GameState) (d1 d2 : Nat)
    (hi : s.currentIdx < s.players.length)
    (hdC : ∀ c ∈ s.chanceDeck, c ∈ chanceCards)
    (hdCC : ∀ c ∈ s.communityDeck, c ∈ communityCards) :
    noFaultOut (rollAndMove fC fCC (f + 3) s d1 d2).2 := by
  simp only [rollAndMove]
  split
  · exact ⟨rfl, rfl⟩
  · split
    · exact ⟨rfl, rfl⟩
    · split
      · split
        · exact ⟨rfl, rfl⟩
        · split
          · refine ⟨?_, ?_⟩
            · exact (handleLanding_noFault fC fCC hOCC hOC f _ _
                (by simp [hi]) (by simpa using hdC) (by simpa using hdCC)).1
            · exact (handleLanding_noFault fC fCC hOCC hOC f _ _
                (by simp [hi]) (by simpa using hdC) (by simpa using hdCC)).2
          · refine ⟨?_, ?_⟩
            · exact (handleLanding_noFault fC fCC hOCC hOC f _ _
                (by simp [hi]) (by simpa using hdC) (by simpa using hdCC)).1
            · exact (handleLanding_noFault fC fCC hOCC hOC f _ _
                (by simp [hi]) (by simpa using hdC) (by simpa using hdCC)).2
      · split
        · refine ⟨?_, ?_⟩
          · exact (handleLanding_noFault fC fCC hOCC hOC f _ _
              (by simp [hi]) (by simpa using hdC) (by simpa using hdCC)).1
          · exact (handleLanding_noFault fC fCC hOCC hOC f _ _
              (by simp [hi]) (by simpa using hdC) (by simpa using hdCC)).2
        · refine ⟨?_, ?_⟩
          · exact (handleLanding_noFault fC fCC hOCC hOC f _ _
              (by simp [hi]) (by simpa using hdC) (by simpa using hdCC)).1
          · exact (handleLanding_noFault fC fCC hOCC hOC f _ _
              (by simp [hi]) (by simpa using hdC) (by simpa using hdCC)).2

theorem buyCurrentProperty_noFault (s : GameState) : noFaultOut (buyCurrentProperty s).2 := by
  simp only [buyCurrentProperty]
  repeat' split
  all_goals exact ⟨rfl, rfl⟩

theorem declinePurchase_noFault (s : GameState) : noFaultOut (declinePurchase s).2 := by
  simp only [declinePurchase]
  repeat' split
  all_goals exact ⟨rfl, rfl⟩

theorem payBail_noFault (s : GameState) : noFaultOut (payBail s).2 := by
  simp only [payBail]
  repeat' split
  all_goals exact ⟨rfl, rfl⟩

theorem useJailCard_noFault (s : GameState) : noFaultOut (useJailCard s).2 := by
  simp only [useJailCard]
  repeat' split
  all_goals exact ⟨rfl, rfl⟩

theorem rollForDoubles_noFault (s : GameState) (d1 d2 : Nat) :
    noFaultOut (rollForDoubles s d1 d2).2 := by
  simp only [rollForDoubles]
  repeat' split
  all_goals exact ⟨rfl, rfl⟩

theorem buildHouse_noFault (s : GameState) (pos : Fin 40) :
    noFaultOut (buildHouse s pos).2 := by
  simp only [buildHouse]
  repeat' split
  all_goals exact ⟨rfl, rfl⟩

theorem mortgageProperty_noFault (s : GameState) (pos : Fin 40) :
    noFaultOut (mortgageProperty s pos).2 := by
  simp only [mortgageProperty]
  repeat' split
  all_goals exact ⟨rfl, rfl⟩

theorem unmortgageProperty_noFault (s : GameState) (pos : Fin 40) :
    noFaultOut (unmortgageProperty s pos).2 := by
  simp only [unmortgageProperty]
  repeat' split
  all_goals exact ⟨rfl, rfl⟩

theorem endTurn_noFault (s : GameState) : noFaultOut (endTurn s).2 := by
  simp only [endTurn]
  repeat' split
  all_goals exact ⟨rfl, rfl⟩

theorem getPropertyInfo_noFault (s : GameState) (pos : Nat) :
    noFaultOut (getPropertyInfo s pos).2 := by
  simp only [getPropertyInfo]
  repeat' split
  all_goals exact ⟨rfl, rfl⟩

/-- C6: every engine operation — roll_and_move, buy_current_property,
decline_purchase, pay_bail, use_jail_card, roll_for_doubles, build_house,
mortgage_property, unmortgage_property, end_turn, get_property_info — that
returns an error result leaves the entire game state unchanged, and (given
the side conditions: current-player index in range, both persistent decks
hold only cards of their deck definitions, card reshuffles always produce
a nonempty legal deck, and the landing-resolution fuel is at least 3) no
operation raises an uncaught fault or exhausts its recursion fuel. -/
theorem operations_atomic_and_fault_free (fC fCC : Nat → List Card)
    (hOCC : ∀ k, fCC k ≠ [] ∧ ∀ c ∈ fCC k, c ∈ communityCards)
    (hOC : ∀ k, fC k ≠ [] ∧ ∀ c ∈ fC k, c ∈ chanceCards)
    (f : Nat) (s : GameState) (d1 d2 : Nat) (pos : Fin 40) (posN : Nat)
    (hi : s.currentIdx < s.players.length)
    (hdC : ∀ c ∈ s.chanceDeck, c ∈ chanceCards)
    (hdCC : ∀ c ∈ s.communityDeck, c ∈ communityCards) :
    (((rollAndMove fC fCC (f + 3) s d1 d2).2.error.isSome = true →
        (rollAndMove fC fCC (f + 3) s d1 d2).1 = s) ∧
      noFaultOut (rollAndMove fC fCC (f + 3) s d1 d2).2) ∧
    (((buyCurrentProperty s).2.error.isSome = true → (buyCurrentProperty s).1 = s) ∧
      noFaultOut (buyCurrentProperty s).2) ∧
    (((declinePurchase s).2.error.isSome = true → (declinePurchase s).1 = s) ∧
      noFaultOut (declinePurchase s).2) ∧
    (((payBail s).2.error.isSome = true → (payBail s).1 = s) ∧
      noFaultOut (payBail s).2) ∧
    (((useJailCard s).2.error.isSome = true → (useJailCard s).1 = s) ∧
      noFaultOut (useJailCard s).2) ∧
    (((rollForDoubles s d1 d2).2.error.isSome = true → (rollForDoubles s d1 d2).1 = s) ∧
      noFaultOut (rollForDoubles s d1 d2).2) ∧
    (((buildHouse s pos).2.error.isSome = true → (buildHouse s pos).1 = s) ∧
      noFaultOut (buildHouse s pos).2) ∧
    (((mortgageProperty s pos).2.error.isSome = true → (mortgageProperty s pos).1 = s) ∧
      noFaultOut (mortgageProperty s pos).2) ∧
    (((unmortgageProperty s pos).2.error.isSome = true → (unmortgageProperty s pos).1 = s) ∧
      noFaultOut (unmortgageProperty s pos).2) ∧
    (((endTurn s).2.error.isSome = true → (endTurn s).1 = s) ∧
      noFaultOut (endTurn s).2) ∧
    (((getPropertyInfo s posN).2.error.isSome = true → (getPropertyInfo s posN).1 = s) ∧
      noFaultOut (getPropertyInfo s posN).2) :=
  ⟨⟨rollAndMove_atomic fC fCC (f + 3) s d1 d2,
      rollAndMove_noFault fC fCC hOCC hOC f s d1 d2 hi hdC hdCC⟩,
    ⟨buyCurrentProperty_atomic s, buyCurrentProperty_noFault s⟩,
    ⟨declinePurchase_atomic s, declinePurchase_noFault s⟩,
    ⟨payBail_atomic s, payBail_noFault s⟩,
    ⟨useJailCard_atomic s, useJailCard_noFault s⟩,
    ⟨rollForDoubles_atomic s d1 d2, rollForDoubles_noFault s d1 d2⟩,
    ⟨buildHouse_atomic s pos, buildHouse_noFault s pos⟩,
    ⟨mortgageProperty_atomic s pos, mortgageProperty_noFault s pos⟩,
    ⟨unmortgageProperty_atomic s pos, unmortgageProperty_noFault s pos⟩,
    ⟨endTurn_atomic s, endTurn_noFault s⟩,
    ⟨getPropertyInfo_atomic s posN, getPropertyInfo_noFault s posN⟩⟩

/-- Concrete instantiation of the atomicity / no-fault theorem: a fresh
two-player game with the standard decks, rolling 1 and 2. -/
theorem operations_atomic_and_fault_free_witness :
    noFaultOut (rollAndMove (fun _ => chanceCards) (fun _ => communityCards) 3
      (initState ["A", "B"] chanceCards communityCards) 1 2).2 :=
  (operations_atomic_and_fault_free (fun _ => chanceCards) (fun _ => communityCards)
    (fun _ => ⟨by simp [communityCards], fun c hc => hc⟩)
    (fun _ => ⟨by simp [chanceCards], fun c hc => hc⟩)
    0 (initState ["A", "B"] chanceCards communityCards) 1 2 0 0
    (by decide) (fun c hc => hc) (fun c hc => hc)).1.2

end Monopoly
